import Mathlib

/-!
Shallow embedding of the cgml simulator (src/engine.py, src/state.py,
src/simulator.py) in Lean 4, together with theorems checking the
natural-language specification against the code.

Python values flowing through the engine (game-state trees, operands,
rank labels) are modelled by the inductive `Value`; Python `dict`s are
association lists (keys may be `str` or `int`), Python objects with
attributes are `vObj` field lists.  Python's `==`, `<`, `>`, `str()`,
truthiness and `int()` parsing are modelled by `pyEq`, `pyLt`, `pyGt`,
`pyStr`, `pyTruthy` and `pyParseInt` on the fragment of values the
engine manipulates.  Fallible code returns `Except`, with one error
constructor per distinct Python exception site.
-/

namespace Cgml

/-- A Python dict key as used in the engine's state trees: `str` or `int`. -/
inductive DKey where
  | ks (s : String)
  | ki (n : Int)
deriving DecidableEq, Repr

/-- A Python value as manipulated by the engine: `None`, `bool`, `int`,
`str`, `list`, `dict`, an object with named attributes, or an opaque
object reference (identity-compared, e.g. a bare pydantic model). -/
inductive Value where
  | vNone
  | vBool (b : Bool)
  | vInt (n : Int)
  | vStr (s : String)
  | vList (elems : List Value)
  | vDict (entries : List (DKey × Value))
  | vObj (fields : List (String × Value))
  | vOpaque (tag : String)
deriving Repr

mutual
/-- Python `str(v)` on the values the engine stringifies (rank labels are
ints or strings; containers get a bracketed rendering). -/
def pyStr : Value → String
  | .vNone => "None"
  | .vBool b => if b then "True" else "False"
  | .vInt n => toString n
  | .vStr s => s
  | .vList l => "[" ++ pyStrList l ++ "]"
  | .vDict _ => "{...}"
  | .vObj _ => "<object>"
  | .vOpaque t => "<" ++ t ++ ">"

def pyStrList : List Value → String
  | [] => ""
  | [v] => pyStr v
  | v :: rest => pyStr v ++ ", " ++ pyStrList rest
end

/-- Python truthiness `bool(v)`. -/
def pyTruthy : Value → Bool
  | .vNone => false
  | .vBool b => b
  | .vInt n => n != 0
  | .vStr s => s != ""
  | .vList l => !l.isEmpty
  | .vDict d => !d.isEmpty
  | .vObj _ => true
  | .vOpaque _ => true

mutual
/-- Python `==` on the modelled values.  `bool` compares as `int`
(`True == 1`); values of unrelated types compare unequal; lists compare
elementwise; `dict`/object equality is modelled structurally on the
representation (objects in the engine compare by identity, which two
distinct embedded objects never share). -/
def pyEq : Value → Value → Bool
  | .vNone, .vNone => true
  | .vBool a, .vBool b => a == b
  | .vBool a, .vInt b => (if a then (1 : Int) else 0) == b
  | .vInt a, .vBool b => a == (if b then (1 : Int) else 0)
  | .vInt a, .vInt b => a == b
  | .vStr a, .vStr b => a == b
  | .vList a, .vList b => pyEqList a b
  | _, _ => false

def pyEqList : List Value → List Value → Bool
  | [], [] => true
  | a :: as, b :: bs => pyEq a b && pyEqList as bs
  | _, _ => false
end

/-- Error raised by a Python comparison / arithmetic on incompatible
types (`TypeError`), by `max`/`min` on an empty list (`ValueError`), or
by `len` on an unsized value (`TypeError`). -/
inductive PyErr where
  | typeError (msg : String)
  | valueError (msg : String)
deriving DecidableEq, Repr

mutual
/-- Python `<` on the modelled values: numbers (with `bool` as `int`)
and strings compare; lists compare lexicographically; any other pairing
raises `TypeError`. -/
def pyLt : Value → Value → Except PyErr Bool
  | .vInt a, .vInt b => .ok (a < b)
  | .vBool a, .vInt b => .ok ((if a then (1 : Int) else 0) < b)
  | .vInt a, .vBool b => .ok (a < (if b then (1 : Int) else 0))
  | .vBool a, .vBool b => .ok ((if a then (1 : Int) else 0) < (if b then 1 else 0))
  | .vStr a, .vStr b => .ok (a < b)
  | .vList a, .vList b => pyLtList a b
  | _, _ => .error (.typeError "unorderable types")

def pyLtList : List Value → List Value → Except PyErr Bool
  | [], [] => .ok false
  | [], _ :: _ => .ok true
  | _ :: _, [] => .ok false
  | a :: as, b :: bs =>
    if pyEq a b then pyLtList as bs
    else pyLt a b
end

/-- Python `a > b`, which for the modelled value kinds agrees with `b < a`. -/
def pyGt (a b : Value) : Except PyErr Bool := pyLt b a

/-- Python `a + b` as used by `sum`: numeric addition with `bool` as
`int`; anything else raises `TypeError`. -/
def pyAdd : Value → Value → Except PyErr Value
  | .vInt a, .vInt b => .ok (.vInt (a + b))
  | .vInt a, .vBool b => .ok (.vInt (a + if b then 1 else 0))
  | .vBool a, .vInt b => .ok (.vInt ((if a then 1 else 0) + b))
  | .vBool a, .vBool b => .ok (.vInt ((if a then (1:Int) else 0) + if b then 1 else 0))
  | _, _ => .error (.typeError "unsupported operand type for +")

/-- Python `len(v)` for sized values; `TypeError` otherwise. -/
def pyLen : Value → Except PyErr Int
  | .vList l => .ok l.length
  | .vDict d => .ok d.length
  | .vStr s => .ok s.length
  | _ => .error (.typeError "object has no len")

/-- Decimal value of a digit string. -/
def digitsVal (cs : List Char) : Nat :=
  cs.foldl (fun a c => a * 10 + (c.toNat - 48)) 0

/-- Python `int(s)` on a string segment: an optional sign followed by
decimal digits parses; anything else raises `ValueError` (`none`). -/
def pyParseInt (s : String) : Option Int :=
  match s.data with
  | [] => none
  | '-' :: rest =>
    if rest ≠ [] ∧ rest.all Char.isDigit then some (-(digitsVal rest : Int)) else none
  | '+' :: rest =>
    if rest ≠ [] ∧ rest.all Char.isDigit then some (digitsVal rest) else none
  | cs =>
    if cs.all Char.isDigit then some (digitsVal cs) else none

/-- The distinct failure kinds of `resolve_path` (src/engine.py lines
10-43), one constructor per `raise` site:
`missingKey` = `KeyError("Key '{part}' not found in dict: ...")`,
`badListKey` = `KeyError("Cannot use key '{part}' on list")`,
`outOfBounds` = `IndexError("Index '{idx}' out of bounds in list access {path}")`,
`nativeIndex` = the built-in `IndexError` from indexing a list with a
negative index below `-len`,
`cannotResolve` = `AttributeError("Cannot resolve '{part}' in path '{path}' ...")`. -/
inductive PathError where
  | missingKey (part : String)
  | badListKey (part : String)
  | outOfBounds (idx : Int) (path : String)
  | nativeIndex (idx : Int)
  | cannotResolve (part : String) (path : String)
deriving DecidableEq, Repr

/-- Python list indexing `l[idx]` including negative indices from the end. -/
def pyListGet (l : List Value) (idx : Int) : Option Value :=
  if 0 ≤ idx then l.get? idx.toNat
  else if 0 ≤ idx + l.length then l.get? (idx + l.length).toNat
  else none

/-- One segment-consuming pass of `resolve_path`'s loop (src/engine.py
lines 13-43).  Branch order follows the source: dict (string key, then
int-key fallback), list (int index, bounds check before indexing),
object attribute, final subscript fallback (which fails on the modelled
scalar/object values, raising the `AttributeError`). -/
def resolvePathGo : Value → List String → String → Except PathError Value
  | cur, [], _ => .ok cur
  | cur, part :: rest, path =>
    match cur with
    | .vDict entries =>
      -- lines 16-19 both return current[part] for a string key
      match entries.find? (fun e => e.1 == DKey.ks part) with
      | some e => resolvePathGo e.2 rest path
      | none =>
        match pyParseInt part with
        | some i =>
          match entries.find? (fun e => e.1 == DKey.ki i) with
          | some e => resolvePathGo e.2 rest path
          | none => .error (.missingKey part)
        | none => .error (.missingKey part)
    | .vList elems =>
      match pyParseInt part with
      | none => .error (.badListKey part)
      | some i =>
        if i < (elems.length : Int) then
          match pyListGet elems i with
          | some v => resolvePathGo v rest path
          | none => .error (.nativeIndex i)
        else .error (.outOfBounds i path)
    | .vObj fields =>
      match fields.find? (fun e => e.1 == part) with
      | some e => resolvePathGo e.2 rest path
      | none => .error (.cannotResolve part path)
    | _ => .error (.cannotResolve part path)

/-- Python `s.split('.')`: maximal runs between dots, so `"" ↦ [""]`
and `"a..b" ↦ ["a", "", "b"]`. -/
def splitDotsGo : List Char → List Char → List String
  | [], acc => [String.mk acc.reverse]
  | ch :: rest, acc =>
    if ch = '.' then String.mk acc.reverse :: splitDotsGo rest []
    else splitDotsGo rest (ch :: acc)

/-- Python `path.split('.')`. -/
def splitDots (s : String) : List String := splitDotsGo s.data []

/-- `resolve_path(obj, path)` (src/engine.py lines 5-44).  A `None` path
returns the object unchanged; otherwise the path is split on `"."`
(note Python's `"".split('.') == ['']`) and the segments are resolved
in turn. -/
def resolve_path (obj : Value) (path : Option String) : Except PathError Value :=
  match path with
  | none => .ok obj
  | some p => resolvePathGo obj (splitDots p) p

/-! ## Deck types and rank-aware comparison (src/engine.py lines 46-88) -/

/-- A deck type declaration as consumed by the engine: its
`rank_hierarchy` attribute, absent when the definition omits it (an
`AttributeError` the engine's bare `except` swallows). -/
structure CgmlDeckType where
  rank_hierarchy : Option (List Value)
deriving Repr

/-- The slice of the loaded CGML definition the engine reads:
`components.component_types['deck_types']`, in declaration order. -/
structure CgmlDef where
  deck_types : List (String × CgmlDeckType)
deriving Repr

/-- `RulesEngine._maybe_compare_ranks` (src/engine.py lines 62-88): when
a definition is attached, its first-declared deck type has a rank
hierarchy, and both values stringified occur in it, replace both by
their first index positions; otherwise return the values unchanged. -/
def maybe_compare_ranks (cgml : Option CgmlDef) (l r : Value) : Value × Value :=
  match cgml with
  | none => (l, r)
  | some d =>
    match d.deck_types with
    | [] => (l, r)
    | (_, dt) :: _ =>
      match dt.rank_hierarchy with
      | none => (l, r)
      | some hier =>
        let hs := hier.map pyStr
        match hs.indexOf? (pyStr l), hs.indexOf? (pyStr r) with
        | some i, some j => (.vInt i, .vInt j)
        | _, _ => (l, r)

/-! ## The expression tree (pydantic `Condition`/`Operand` shape) -/

mutual
/-- The field set of the pydantic `Condition`/`Operand` models as read
by `RulesEngine.evaluate_condition`/`resolve_operand` (src/engine.py
lines 90-218): `value`, `path`, `ref`, the three comparisons, the
boolean combinators and the aggregates, each optional. -/
inductive Node where
  | mk (value : Option Value) (path : Option String) (ref : Option String)
       (isEqual : Option (List Opnd)) (isGreaterThan : Option (List Opnd))
       (isLessThan : Option (List Opnd))
       (and_ : Option (List Opnd)) (or_ : Option (List Opnd)) (not_ : Option Opnd)
       (max_ : Option (List Opnd)) (min_ : Option (List Opnd))
       (sum_ : Option (List Opnd)) (count : Option CountArg) : Node

/-- A child position in the tree: either a parsed model node or a plain
Python value (the engine returns plain values unchanged from
`resolve_operand` and truth-tests them in `evaluate_condition`). -/
inductive Opnd where
  | node (n : Node)
  | raw (v : Value)

/-- The `count` field's payload: a list of children, or any other sized
value. -/
inductive CountArg where
  | lst (l : List Opnd)
  | other (v : Value)
end

/-- The game-state argument of the evaluator: the state tree that
`resolve_path` walks, plus the `cgml_definition` attribute that
`_maybe_compare_ranks` consults (absent when the attribute is unset). -/
structure PyGameState where
  stateVal : Value
  cgml : Option CgmlDef

/-- Everything `evaluate_condition`/`resolve_operand` can raise:
a path-resolution failure, a Python type/value error from a comparison
or aggregate, an `IndexError` from `cond.isEqual[k]` on a short operand
list, or (spec-modelled parsing) an unrecognized key / ill-shaped field
in a raw map. -/
inductive EvalErr where
  | pathErr (e : PathError)
  | pyErr (e : PyErr)
  | operandIndex (k : Nat)
  | unknownKey (k : String)
  | badShape (msg : String)
deriving DecidableEq, Repr

/-- `context.get(name)`: the binding, or Python `None` when absent. -/
def ctxGet (ctx : List (String × Value)) (k : String) : Value :=
  match ctx.find? (fun e => e.1 == k) with
  | some e => e.2
  | none => .vNone

/-- Python `max(vals)` using `>` comparisons; empty input raises
`ValueError`. -/
def pyMax (vals : List Value) : Except PyErr Value :=
  match vals with
  | [] => .error (.valueError "max() arg is an empty sequence")
  | v :: rest => go v rest
where
  go (acc : Value) : List Value → Except PyErr Value
    | [] => .ok acc
    | x :: xs =>
      match pyGt x acc with
      | .error e => .error e
      | .ok b => go (if b then x else acc) xs

/-- Python `min(vals)` using `<` comparisons; empty input raises
`ValueError`. -/
def pyMin (vals : List Value) : Except PyErr Value :=
  match vals with
  | [] => .error (.valueError "min() arg is an empty sequence")
  | v :: rest => go v rest
where
  go (acc : Value) : List Value → Except PyErr Value
    | [] => .ok acc
    | x :: xs =>
      match pyLt x acc with
      | .error e => .error e
      | .ok b => go (if b then x else acc) xs

/-- The one-level flattening in the `sum` branches (src/engine.py lines
137-142 and 202-208): list elements are spliced, everything else kept. -/
def flattenOne (vals : List Value) : List Value :=
  vals.foldr (fun v acc => match v with | .vList l => l ++ acc | _ => v :: acc) []

/-- Python `sum(vals)`: `0 + v₁ + ⋯`; non-numeric elements raise
`TypeError`. -/
def pySum (vals : List Value) : Except PyErr Value :=
  go (.vInt 0) vals
where
  go (acc : Value) : List Value → Except PyErr Value
    | [] => .ok acc
    | x :: xs =>
      match pyAdd acc x with
      | .error e => .error e
      | .ok r => go r xs

/-- Selector for the shared comparison-branch body `evalCompare`. -/
inductive CmpKind where
  | eqCmp
  | gtCmp
  | ltCmp
deriving DecidableEq, Repr

mutual
/-- `RulesEngine.evaluate_condition` (src/engine.py lines 90-159) on an
already-parsed node.  A plain value is truth-tested (line 102); a model
node's fields are checked in source order — `isEqual`, `isGreaterThan`,
`isLessThan`, `and`, `or`, `not`, `max`, `min`, `sum`, `count`,
`value`, `path`, `ref` — and the final fall-through returns `False`
(line 159). -/
def evaluate_condition (c : Opnd) (gs : PyGameState) (ctx : List (String × Value)) :
    Except EvalErr Value :=
  match c with
  | .raw v => .ok (.vBool (pyTruthy v))
  | .node (.mk value path ref isEq isGt isLt and_ or_ not_ max_ min_ sum_ count) =>
    match isEq with
    | some l => evalCompare l .eqCmp gs ctx
    | none =>
    match isGt with
    | some l => evalCompare l .gtCmp gs ctx
    | none =>
    match isLt with
    | some l => evalCompare l .ltCmp gs ctx
    | none =>
    match and_ with
    | some l =>
      match evalAll l gs ctx with
      | .error e => .error e
      | .ok b => .ok (.vBool b)
    | none =>
    match or_ with
    | some l =>
      match evalAny l gs ctx with
      | .error e => .error e
      | .ok b => .ok (.vBool b)
    | none =>
    match not_ with
    | some o =>
      match evaluate_condition o gs ctx with
      | .error e => .error e
      | .ok v => .ok (.vBool (!pyTruthy v))
    | none =>
    match max_ with
    | some l =>
      match resolveList l gs ctx with
      | .error e => .error e
      | .ok vals => (pyMax vals).mapError .pyErr
    | none =>
    match min_ with
    | some l =>
      match resolveList l gs ctx with
      | .error e => .error e
      | .ok vals => (pyMin vals).mapError .pyErr
    | none =>
    match sum_ with
    | some l =>
      match resolveList l gs ctx with
      | .error e => .error e
      | .ok vals => (pySum (flattenOne vals)).mapError .pyErr
    | none =>
    match count with
    | some ca => evalCount ca gs ctx
    | none =>
    match value with
    | some v => .ok v
    | none =>
    match path with
    | some p => (resolve_path gs.stateVal (some p)).mapError .pathErr
    | none =>
    match ref with
    | some r => .ok (ctxGet ctx r)
    | none => .ok (.vBool false)

/-- The shared body of the three comparison branches: resolve
`l[0]` and `l[1]` (raising `IndexError` as the source's raw indexing
does), apply `_maybe_compare_ranks`, then Python `==`/`>`/`<`. -/
def evalCompare (l : List Opnd) (k : CmpKind) (gs : PyGameState)
    (ctx : List (String × Value)) : Except EvalErr Value :=
  match l with
  | [] => .error (.operandIndex 0)
  | a :: rest =>
    match resolve_operand a gs ctx with
    | .error e => .error e
    | .ok la =>
      match rest with
      | [] => .error (.operandIndex 1)
      | b :: _ =>
        match resolve_operand b gs ctx with
        | .error e => .error e
        | .ok rb =>
          let p := maybe_compare_ranks gs.cgml la rb
          match k with
          | .eqCmp => .ok (.vBool (pyEq p.1 p.2))
          | .gtCmp =>
            match pyGt p.1 p.2 with
            | .error e => .error (.pyErr e)
            | .ok b' => .ok (.vBool b')
          | .ltCmp =>
            match pyLt p.1 p.2 with
            | .error e => .error (.pyErr e)
            | .ok b' => .ok (.vBool b')

/-- Python `all(evaluate_condition(sub) for sub in l)`: short-circuit
conjunction of truthiness. -/
def evalAll (l : List Opnd) (gs : PyGameState) (ctx : List (String × Value)) :
    Except EvalErr Bool :=
  match l with
  | [] => .ok true
  | c :: rest =>
    match evaluate_condition c gs ctx with
    | .error e => .error e
    | .ok v => if pyTruthy v then evalAll rest gs ctx else .ok false

/-- Python `any(evaluate_condition(sub) for sub in l)`: short-circuit
disjunction of truthiness. -/
def evalAny (l : List Opnd) (gs : PyGameState) (ctx : List (String × Value)) :
    Except EvalErr Bool :=
  match l with
  | [] => .ok false
  | c :: rest =>
    match evaluate_condition c gs ctx with
    | .error e => .error e
    | .ok v => if pyTruthy v then .ok true else evalAny rest gs ctx

/-- `[self.resolve_operand(x, ...) for x in l]`. -/
def resolveList (l : List Opnd) (gs : PyGameState) (ctx : List (String × Value)) :
    Except EvalErr (List Value) :=
  match l with
  | [] => .ok []
  | o :: rest =>
    match resolve_operand o gs ctx with
    | .error e => .error e
    | .ok v =>
      match resolveList rest gs ctx with
      | .error e => .error e
      | .ok vs => .ok (v :: vs)

/-- The `count` branch (src/engine.py lines 144-152 and 210-217): a
one-element list counts its resolved element's length, any other list
its own length, any other value its `len`. -/
def evalCount (ca : CountArg) (gs : PyGameState) (ctx : List (String × Value)) :
    Except EvalErr Value :=
  match ca with
  | .lst [o] =>
    match resolve_operand o gs ctx with
    | .error e => .error e
    | .ok v =>
      match pyLen v with
      | .error e => .error (.pyErr e)
      | .ok n => .ok (.vInt n)
  | .lst l => .ok (.vInt l.length)
  | .other v =>
    match pyLen v with
    | .error e => .error (.pyErr e)
    | .ok n => .ok (.vInt n)

/-- `RulesEngine.resolve_operand` (src/engine.py lines 161-218).  A
plain value is returned unchanged (the final `return operand`); a model
node's fields are checked in *this* method's order — `path`, `value`,
`ref`, then the comparisons and combinators (each source branch
delegates to `evaluate_condition` on a condition carrying just that
field, whose evaluation is exactly the matching branch body, inlined
here), then the aggregates, and an all-empty node falls through to
`return operand`, i.e. the bare model object. -/
def resolve_operand (o : Opnd) (gs : PyGameState) (ctx : List (String × Value)) :
    Except EvalErr Value :=
  match o with
  | .raw v => .ok v
  | .node (.mk value path ref isEq isGt isLt and_ or_ not_ max_ min_ sum_ count) =>
    match path with
    | some p => (resolve_path gs.stateVal (some p)).mapError .pathErr
    | none =>
    match value with
    | some v => .ok v
    | none =>
    match ref with
    | some r => .ok (ctxGet ctx r)
    | none =>
    match isEq with
    | some l => evalCompare l .eqCmp gs ctx
    | none =>
    match isGt with
    | some l => evalCompare l .gtCmp gs ctx
    | none =>
    match isLt with
    | some l => evalCompare l .ltCmp gs ctx
    | none =>
    match and_ with
    | some l =>
      match evalAll l gs ctx with
      | .error e => .error e
      | .ok b => .ok (.vBool b)
    | none =>
    match or_ with
    | some l =>
      match evalAny l gs ctx with
      | .error e => .error e
      | .ok b => .ok (.vBool b)
    | none =>
    match not_ with
    | some c =>
      match evaluate_condition c gs ctx with
      | .error e => .error e
      | .ok v => .ok (.vBool (!pyTruthy v))
    | none =>
    match max_ with
    | some l =>
      match resolveList l gs ctx with
      | .error e => .error e
      | .ok vals => (pyMax vals).mapError .pyErr
    | none =>
    match min_ with
    | some l =>
      match resolveList l gs ctx with
      | .error e => .error e
      | .ok vals => (pyMin vals).mapError .pyErr
    | none =>
    match sum_ with
    | some l =>
      match resolveList l gs ctx with
      | .error e => .error e
      | .ok vals => (pySum (flattenOne vals)).mapError .pyErr
    | none =>
    match count with
    | some ca => evalCount ca gs ctx
    | none => .ok (.vOpaque "Operand")
end

/-! ## Parsing a raw map into a node

`RulesEngine.evaluate_condition` calls `Condition.parse_obj(cond)` on a
raw dict (src/engine.py line 105).  The pydantic `Condition`/`Operand`
models live in `src/loader.py`, which is not part of the sources here,
so parsing is modelled from the spec. -/

/-- A raw (loader-level) representation of an expression-tree node, as
a loosely-typed YAML-like value. -/
inductive Raw where
  | rNull
  | rBool (b : Bool)
  | rInt (n : Int)
  | rStr (s : String)
  | rList (l : List Raw)
  | rMap (m : List (String × Raw))

mutual
/-- The plain Python value a raw tree denotes (maps become dicts with
string keys). -/
def rawToValue : Raw → Value
  | .rNull => .vNone
  | .rBool b => .vBool b
  | .rInt n => .vInt n
  | .rStr s => .vStr s
  | .rList l => .vList (rawToValueList l)
  | .rMap m => .vDict (rawToValueMap m)

def rawToValueList : List Raw → List Value
  | [] => []
  | r :: rest => rawToValue r :: rawToValueList rest

def rawToValueMap : List (String × Raw) → List (DKey × Value)
  | [] => []
  | (k, r) :: rest => (.ks k, rawToValue r) :: rawToValueMap rest
end

/-- The operator keys a condition/operand map may carry: `value`,
`path`, `ref`, `equal`/`isEqual`, `greaterThan`, `lessThan`, `and`,
`or`, `not`, `max`, `min`, `sum`, `count`. -/
def recognizedKeys : List String :=
  ["value", "path", "ref", "equal", "isEqual", "greaterThan", "lessThan",
   "and", "or", "not", "max", "min", "sum", "count"]

/-- One parsed key/value pair of a raw condition map. -/
inductive PField where
  | fValue (v : Value)
  | fPath (s : String)
  | fRef (s : String)
  | fIsEqual (l : List Opnd)
  | fIsGreaterThan (l : List Opnd)
  | fIsLessThan (l : List Opnd)
  | fAnd (l : List Opnd)
  | fOr (l : List Opnd)
  | fNot (o : Opnd)
  | fMax (l : List Opnd)
  | fMin (l : List Opnd)
  | fSum (l : List Opnd)
  | fCount (c : CountArg)

/-- The first payload for each model field among the parsed entries. -/
def pfValue : List PField → Option Value
  | [] => none
  | .fValue v :: _ => some v
  | _ :: rest => pfValue rest

def pfPath : List PField → Option String
  | [] => none
  | .fPath s :: _ => some s
  | _ :: rest => pfPath rest

def pfRef : List PField → Option String
  | [] => none
  | .fRef s :: _ => some s
  | _ :: rest => pfRef rest

def pfIsEqual : List PField → Option (List Opnd)
  | [] => none
  | .fIsEqual l :: _ => some l
  | _ :: rest => pfIsEqual rest

def pfIsGreaterThan : List PField → Option (List Opnd)
  | [] => none
  | .fIsGreaterThan l :: _ => some l
  | _ :: rest => pfIsGreaterThan rest

def pfIsLessThan : List PField → Option (List Opnd)
  | [] => none
  | .fIsLessThan l :: _ => some l
  | _ :: rest => pfIsLessThan rest

def pfAnd : List PField → Option (List Opnd)
  | [] => none
  | .fAnd l :: _ => some l
  | _ :: rest => pfAnd rest

def pfOr : List PField → Option (List Opnd)
  | [] => none
  | .fOr l :: _ => some l
  | _ :: rest => pfOr rest

def pfNot : List PField → Option Opnd
  | [] => none
  | .fNot o :: _ => some o
  | _ :: rest => pfNot rest

def pfMax : List PField → Option (List Opnd)
  | [] => none
  | .fMax l :: _ => some l
  | _ :: rest => pfMax rest

def pfMin : List PField → Option (List Opnd)
  | [] => none
  | .fMin l :: _ => some l
  | _ :: rest => pfMin rest

def pfSum : List PField → Option (List Opnd)
  | [] => none
  | .fSum l :: _ => some l
  | _ :: rest => pfSum rest

def pfCount : List PField → Option CountArg
  | [] => none
  | .fCount c :: _ => some c
  | _ :: rest => pfCount rest

/-- Assemble a model node from the parsed entries: each field takes the
payload of its key when present. -/
def assembleNode (fs : List PField) : Node :=
  .mk (pfValue fs) (pfPath fs) (pfRef fs) (pfIsEqual fs) (pfIsGreaterThan fs)
      (pfIsLessThan fs) (pfAnd fs) (pfOr fs) (pfNot fs) (pfMax fs) (pfMin fs)
      (pfSum fs) (pfCount fs)

/-- Modelled from the spec: the unrecognized-key scan of node parsing
(the work of `Condition.parse_obj`/`Operand.parse_obj` in the absent
`src/loader.py`) — "must recognize the above keys and reject
unrecognized keys as a hard parse/evaluation error".  Returns the first
key of the raw map outside the recognized set, if any. -/
def findUnknownKey : List (String × Raw) → Option String
  | [] => none
  | (k, _) :: rest => if k ∈ recognizedKeys then findUnknownKey rest else some k

mutual
/-- Modelled from the spec: each recognized key's payload is parsed to
the matching model field (`parseOpnd` has already rejected unrecognized
keys via `findUnknownKey`, so the fall-through arm is unreachable). -/
def parseEntries : List (String × Raw) → Except EvalErr (List PField)
  | [] => .ok []
  | (k, v) :: rest =>
      match
        ((match k, v with
         | "value", r => .ok (.fValue (rawToValue r))
         | "path", .rStr s => .ok (.fPath s)
         | "path", _ => .error (.badShape "path: string expected")
         | "ref", .rStr s => .ok (.fRef s)
         | "ref", _ => .error (.badShape "ref: string expected")
         | "equal", .rList l =>
           match parseOpndList l with
           | .error e => .error e
           | .ok os => .ok (.fIsEqual os)
         | "equal", _ => .error (.badShape "equal: list expected")
         | "isEqual", .rList l =>
           match parseOpndList l with
           | .error e => .error e
           | .ok os => .ok (.fIsEqual os)
         | "isEqual", _ => .error (.badShape "isEqual: list expected")
         | "greaterThan", .rList l =>
           match parseOpndList l with
           | .error e => .error e
           | .ok os => .ok (.fIsGreaterThan os)
         | "greaterThan", _ => .error (.badShape "greaterThan: list expected")
         | "lessThan", .rList l =>
           match parseOpndList l with
           | .error e => .error e
           | .ok os => .ok (.fIsLessThan os)
         | "lessThan", _ => .error (.badShape "lessThan: list expected")
         | "and", .rList l =>
           match parseOpndList l with
           | .error e => .error e
           | .ok os => .ok (.fAnd os)
         | "and", _ => .error (.badShape "and: list expected")
         | "or", .rList l =>
           match parseOpndList l with
           | .error e => .error e
           | .ok os => .ok (.fOr os)
         | "or", _ => .error (.badShape "or: list expected")
         | "not", r =>
           match parseOpnd r with
           | .error e => .error e
           | .ok o => .ok (.fNot o)
         | "max", .rList l =>
           match parseOpndList l with
           | .error e => .error e
           | .ok os => .ok (.fMax os)
         | "max", _ => .error (.badShape "max: list expected")
         | "min", .rList l =>
           match parseOpndList l with
           | .error e => .error e
           | .ok os => .ok (.fMin os)
         | "min", _ => .error (.badShape "min: list expected")
         | "sum", .rList l =>
           match parseOpndList l with
           | .error e => .error e
           | .ok os => .ok (.fSum os)
         | "sum", _ => .error (.badShape "sum: list expected")
         | "count", .rList l =>
           match parseOpndList l with
           | .error e => .error e
           | .ok os => .ok (.fCount (.lst os))
         | "count", r => .ok (.fCount (.other (rawToValue r)))
         | k', _ => .error (.unknownKey k')) : Except EvalErr PField) with
      | .error e => .error e
      | .ok f =>
        match parseEntries rest with
        | .error e => .error e
        | .ok fs => .ok (f :: fs)

/-- Modelled from the spec: a child of an operator key — a nested map
parses as a node, everything else is a plain value operand. -/
def parseOpnd : Raw → Except EvalErr Opnd
  | .rMap m =>
    match findUnknownKey m with
    | some k => .error (.unknownKey k)
    | none =>
      match parseEntries m with
      | .error e => .error e
      | .ok fs => .ok (.node (assembleNode fs))
  | r => .ok (.raw (rawToValue r))

def parseOpndList : List Raw → Except EvalErr (List Opnd)
  | [] => .ok []
  | r :: rest =>
    match parseOpnd r with
    | .error e => .error e
    | .ok o =>
      match parseOpndList rest with
      | .error e => .error e
      | .ok os => .ok (o :: os)
end

/-- `RulesEngine.evaluate_condition` on a raw input (src/engine.py lines
101-105): a non-map value is truth-tested directly; a raw map is parsed
(spec-modelled `Condition.parse_obj`) and the parsed node evaluated. -/
def evaluate_condition_raw (r : Raw) (gs : PyGameState)
    (ctx : List (String × Value)) : Except EvalErr Value :=
  match r with
  | .rMap m =>
    match findUnknownKey m with
    | some k => .error (.unknownKey k)
    | none =>
      match parseEntries m with
      | .error e => .error e
      | .ok fs => evaluate_condition (.node (assembleNode fs)) gs ctx
  | other => .ok (.vBool (pyTruthy (rawToValue other)))

/-! ## Zone/card state model (src/state.py) -/

/-- `Card` (src/state.py lines 5-10). -/
structure Card where
  id : String
  name : String
  properties : List (String × Value)
  owner : Option Int := none
deriving Repr, Inhabited

/-- `Zone` (src/state.py lines 12-32); `cards` is the ordered sequence. -/
structure Zone where
  name : String
  ztype : String
  of_deck : Option String := none
  owner : Option Int := none
  ordering : Option String := none
  cards : List Card := []
deriving Repr

/-- `Zone.card_count` (src/state.py lines 22-25). -/
def Zone.card_count (z : Zone) : Nat := z.cards.length

/-- `Zone.top_card` (src/state.py lines 27-32): `None` when empty, else
`self.cards[-1]`. -/
def Zone.top_card (z : Zone) : Option Card :=
  if z.cards.isEmpty then none else z.cards.getLast?

/-- The loop body of `move_cards` (src/state.py lines 190-192), iterated
`min(count, len(from))` times on the two zones' card lists: pop the
front of `from`, append it to the back of `to`.  The two zones are
distinct objects here (the simulator resolves them separately). -/
def moveLoop : List Card → List Card → Nat → List Card × List Card
  | f, t, 0 => (f, t)
  | [], t, _ + 1 => ([], t)
  | c :: rest, t, n + 1 => moveLoop rest (t ++ [c]) n

/-- `move_cards(from_zone, to_zone, count)` (src/state.py lines 190-192). -/
def move_cards (from_zone to_zone : Zone) (count : Nat := 1) : Zone × Zone :=
  let p := moveLoop from_zone.cards to_zone.cards (min count from_zone.cards.length)
  ({ from_zone with cards := p.1 }, { to_zone with cards := p.2 })

/-- The `while from_zone.cards` loop of `move_all_cards` (src/state.py
lines 194-196) on two distinct zones' card lists. -/
def moveAllLoop : List Card → List Card → List Card × List Card
  | [], t => ([], t)
  | c :: rest, t => moveAllLoop rest (t ++ [c])

/-- `move_all_cards(from_zone, to_zone)` (src/state.py lines 194-196). -/
def move_all_cards (from_zone to_zone : Zone) : Zone × Zone :=
  let p := moveAllLoop from_zone.cards to_zone.cards
  ({ from_zone with cards := p.1 }, { to_zone with cards := p.2 })

/-- One round of `deal_cards`' inner loop (src/state.py lines 200-202):
for each player's target hand in order, if the source still has cards,
pop its front card onto the back of that hand. -/
def dealRound : List Card → List (List Card) → List Card × List (List Card)
  | f, [] => (f, [])
  | [], hands => ([], hands)
  | c :: rest, h :: hs =>
    let p := dealRound rest hs
    (p.1, (h ++ [c]) :: p.2)

/-- `deal_cards(from_zone, players, to_zone_name, count)` (src/state.py
lines 198-202) on the source's card list and the players' target-zone
card lists (`player.zones[to_zone_name]`, in player order, each a
distinct zone object). -/
def deal_cards (f : List Card) (hands : List (List Card)) (count : Nat) :
    List Card × List (List Card) :=
  match count with
  | 0 => (f, hands)
  | n + 1 =>
    let p := dealRound f hands
    deal_cards p.1 p.2 n

/-- The `while from_deck.cards` loop of `deal_all_cards` (src/state.py
lines 204-210): pop the front card and append it to hand `idx % n`,
incrementing `idx`.  (With no players the source raises
`ZeroDivisionError`; the model returns the hands unchanged there.) -/
def dealAllGo : List Card → List (List Card) → Nat → List (List Card)
  | [], hands, _ => hands
  | c :: rest, hands, idx =>
    if hands.isEmpty then hands
    else
      dealAllGo rest
        (hands.set (idx % hands.length) (hands.getD (idx % hands.length) [] ++ [c]))
        (idx + 1)

/-- `deal_all_cards(from_deck, players, to_zone_name)` (src/state.py
lines 204-210): round-robin over the players' target hands from
player 0, until the source is empty. -/
def deal_all_cards (from_deck : List Card) (hands : List (List Card)) :
    List (List Card) :=
  dealAllGo from_deck hands 0

/-- The cards a round-robin distribution over `n` hands starting at
counter `idx` sends to hand `k`: every card whose counter value is
congruent to `k` mod `n`, in order. -/
def pickRR (n : Nat) : List Card → Nat → Nat → List Card
  | [], _, _ => []
  | c :: rest, idx, k =>
    (if idx % n = k then [c] else []) ++ pickRR n rest (idx + 1) k

/-! ### All zones at once

For the conservation invariant the zone primitives are viewed over the
whole collection of zone card-sequences at once, zones addressed by
index (the same sequence operations as above; indexing models the
distinct mutable `Zone` objects, and two equal indices model the same
object passed twice). -/

/-- Every zone's card sequence, zone `i` at position `i`. -/
abbrev ZoneStore := List (List Card)

/-- A single `to.cards.append(from.cards.pop(0))` step between store
zones `i` and `j`, skipped when `i` is empty. -/
def moveStep (s : ZoneStore) (i j : Nat) : ZoneStore :=
  match s.getD i [] with
  | [] => s
  | c :: rest =>
    let s1 := s.set i rest
    s1.set j (s1.getD j [] ++ [c])

/-- `range(min(count, len(from)))` iterations of the move step. -/
def moveN (s : ZoneStore) (i j : Nat) : Nat → ZoneStore
  | 0 => s
  | n + 1 => moveN (moveStep s i j) i j n

/-- `move_cards` over the store. -/
def zMove (s : ZoneStore) (i j count : Nat) : ZoneStore :=
  moveN s i j (min count (s.getD i []).length)

/-- `move_all_cards` over the store; the fuel is the source's length,
which the `while` loop consumes when the zones are distinct. -/
def zMoveAllGo (s : ZoneStore) (i j : Nat) : Nat → ZoneStore
  | 0 => s
  | n + 1 =>
    match s.getD i [] with
    | [] => s
    | _ :: _ => zMoveAllGo (moveStep s i j) i j n

/-- `move_all_cards` over the store. -/
def zMoveAll (s : ZoneStore) (i j : Nat) : ZoneStore :=
  zMoveAllGo s i j (s.getD i []).length

/-- One round of `deal_cards` over the store: one conditional move step
per hand, in hand order. -/
def zDealRound (s : ZoneStore) (src : Nat) : List Nat → ZoneStore
  | [] => s
  | h :: hs => zDealRound (moveStep s src h) src hs

/-- `deal_cards` over the store. -/
def zDeal (s : ZoneStore) (src : Nat) (hands : List Nat) : Nat → ZoneStore
  | 0 => s
  | n + 1 => zDeal (zDealRound s src hands) src hands n

/-- The `deal_all_cards` loop over the store; fuel as for `zMoveAll`. -/
def zDealAllGo (s : ZoneStore) (src : Nat) (hands : List Nat) (idx : Nat) :
    Nat → ZoneStore
  | 0 => s
  | n + 1 =>
    match s.getD src [] with
    | [] => s
    | _ :: _ =>
      if hands.isEmpty then s
      else
        zDealAllGo (moveStep s src (hands.getD (idx % hands.length) 0)) src hands
          (idx + 1) n

/-- `deal_all_cards` over the store. -/
def zDealAll (s : ZoneStore) (src : Nat) (hands : List Nat) : ZoneStore :=
  zDealAllGo s src hands 0 (s.getD src []).length

/-- `shuffle_zone` (src/state.py lines 188-189) over the store:
`random.shuffle` realizes some permutation `p` of the zone's cards in
place. -/
def zShuffle (s : ZoneStore) (i : Nat) (p : List Card → List Card) : ZoneStore :=
  s.set i (p (s.getD i []))

/-- A zone primitive, as dispatched by the effect handlers and setup
(src/state.py lines 188-210): the zone arguments are store indices, and
a shuffle carries the permutation the random source realized. -/
inductive ZOp where
  | move (i j count : Nat)
  | moveAll (i j : Nat)
  | deal (src : Nat) (hands : List Nat) (count : Nat)
  | dealAll (src : Nat) (hands : List Nat)
  | shuffle (i : Nat) (p : List Card → List Card)

/-- Run one primitive over the store. -/
def applyOp (s : ZoneStore) : ZOp → ZoneStore
  | .move i j count => zMove s i j count
  | .moveAll i j => zMoveAll s i j
  | .deal src hands count => zDeal s src hands count
  | .dealAll src hands => zDealAll s src hands
  | .shuffle i p => zShuffle s i p

/-- Run a sequence of primitives over the store. -/
def applyOps (s : ZoneStore) : List ZOp → ZoneStore
  | [] => s
  | op :: rest => applyOps (applyOp s op) rest

/-- Well-formedness of a primitive against a store of `n` zones: zone
arguments exist, and a shuffle's realized rearrangement is a
permutation (what `random.shuffle` guarantees). -/
def opWF (n : Nat) : ZOp → Prop
  | .move i j _ => i < n ∧ j < n
  | .moveAll i j => i < n ∧ j < n
  | .deal src hands _ => src < n ∧ ∀ h ∈ hands, h < n
  | .dealAll src hands => src < n ∧ ∀ h ∈ hands, h < n
  | .shuffle i p => i < n ∧ ∀ l, List.Perm (p l) l

/-- The global multiset of cards over all zones of the store. -/
def storeCards (s : ZoneStore) : Multiset Card :=
  (s.map (fun l => (l : Multiset Card))).sum

/-! ## Players, game state, effect execution (src/state.py, src/engine.py) -/

/-- `Player` (src/state.py lines 34-39). -/
structure Player where
  id : Int
  name : String
  /-- the source's `variables` mapping (a Lean keyword) -/
  pvars : List (String × Value) := []
  zones : List (String × Zone) := []
deriving Repr

/-- `GameState` (src/state.py lines 41-47) together with the
`current_state` attribute `GameSimulator.__init__`/`SET_GAME_STATE`
store on it (src/simulator.py lines 36-38 and 64).  `current_state` is
kept as a `Value` because the handler stores whatever the effect's
`state` parameter holds and the simulator compares it with `==`. -/
structure GameState where
  players : List Player := []
  shared_zones : List (String × Zone) := []
  shared_variables : List (String × Value) := []
  decks : List (String × List Card) := []
  cgml_definition : Option CgmlDef := none
  current_state : Value := .vNone
deriving Repr

/-- The transient context map shared along one effect list. -/
abbrev Ctx := List (String × Value)

/-- A registered effect handler: receives the mutable game state, the
shared context, and the action's parameter map, and returns the updated
pair (the Python handlers mutate in place). -/
abbrev Handler := GameState → Ctx → List (String × Value) → GameState × Ctx

/-- An `EffectAction` as `execute_effect` consumes it: the `action`
name, and the remaining set fields as the parameter map
(`action_def.dict(exclude={"action"}, exclude_none=True)`). -/
structure EffectAction where
  action : String
  params : List (String × Value) := []
deriving Repr

/-- `RulesEngine.execute_effect` (src/engine.py lines 220-234): walk the
effect list in order; dispatch each action whose name is registered,
threading state and context; log `"Action not implemented: ..."` and
continue for an unregistered name.  Returns the final state, the final
context, and the log lines in order. -/
def execute_effect (registry : List (String × Handler))
    (effect_list : List EffectAction) (game_state : GameState) (ctx : Ctx) :
    GameState × Ctx × List String :=
  match effect_list with
  | [] => (game_state, ctx, [])
  | a :: rest =>
    match registry.find? (fun e => e.1 == a.action) with
    | some e =>
      let p := e.2 game_state ctx a.params
      execute_effect registry rest p.1 p.2
    | none =>
      let r := execute_effect registry rest game_state ctx
      (r.1, r.2.1, ("Action not implemented: " ++ a.action) :: r.2.2)

/-- `set_game_state_action` (src/simulator.py lines 36-38): store the
effect's `state` parameter in `game_state.current_state`.  (A missing
`state` parameter would be a `TypeError` at call time in the source;
the model leaves the state unchanged there.) -/
def set_game_state_action : Handler := fun gs ctx params =>
  match params.find? (fun e => e.1 == "state") with
  | some e => ({ gs with current_state := e.2 }, ctx)
  | none => (gs, ctx)

/-! ## Flow controller (src/simulator.py) -/

/-- A flow state's declaration: its ordered phase list. -/
structure FlowStateDef where
  phases : List String := []
deriving Repr

/-- A declared transition `{from, to, condition}`. -/
structure Transition where
  from_ : String
  /-- the source's `to` field (a Lean keyword) -/
  to_ : String
  condition : Option Opnd := none

/-- The `flow` section: initial state, state declarations, transitions. -/
structure Flow where
  initial_state : String
  states : List (String × FlowStateDef) := []
  transitions : List Transition := []

/-- A rule `{id, trigger, condition, effect}`. -/
structure Rule where
  id : String
  trigger : String
  condition : Option Opnd := none
  effect : List EffectAction := []

/-- The simulator's mutable tracking state: the game state plus
`phase_idx` and `current_player_idx` (src/simulator.py lines 64-67). -/
structure SimState where
  game_state : GameState
  phase_idx : Nat := 0
  current_player_idx : Nat := 0
deriving Repr

/-- `Card` as `resolve_path` sees it (attribute access on the dataclass). -/
def encodeCard (c : Card) : Value :=
  .vObj [("id", .vStr c.id), ("name", .vStr c.name),
         ("properties", .vDict (c.properties.map (fun e => (DKey.ks e.1, e.2)))),
         ("owner", match c.owner with | some n => .vInt n | none => .vNone)]

/-- `Zone` as `resolve_path` sees it; `card_count` and `top_card` are
`@property` attributes and so resolvable segments. -/
def encodeZone (z : Zone) : Value :=
  .vObj [("name", .vStr z.name), ("type", .vStr z.ztype),
         ("of_deck", match z.of_deck with | some s => .vStr s | none => .vNone),
         ("owner", match z.owner with | some n => .vInt n | none => .vNone),
         ("ordering", match z.ordering with | some s => .vStr s | none => .vNone),
         ("cards", .vList (z.cards.map encodeCard)),
         ("card_count", .vInt z.card_count),
         ("top_card", match z.top_card with | some c => encodeCard c | none => .vNone)]

/-- `Player` as `resolve_path` sees it. -/
def encodePlayer (p : Player) : Value :=
  .vObj [("id", .vInt p.id), ("name", .vStr p.name),
         ("variables", .vDict (p.pvars.map (fun e => (DKey.ks e.1, e.2)))),
         ("zones", .vDict (p.zones.map (fun e => (DKey.ks e.1, encodeZone e.2))))]

/-- `GameState` as `resolve_path` sees it when a rule or transition
condition resolves a dotted path against the live game state. -/
def encodeGameState (gs : GameState) : Value :=
  .vObj [("players", .vList (gs.players.map encodePlayer)),
         ("shared_zones",
          .vDict (gs.shared_zones.map (fun e => (DKey.ks e.1, encodeZone e.2)))),
         ("shared_variables",
          .vDict (gs.shared_variables.map (fun e => (DKey.ks e.1, e.2)))),
         ("decks",
          .vDict (gs.decks.map (fun e => (DKey.ks e.1, .vList (e.2.map encodeCard))))),
         ("current_state", gs.current_state),
         ("cgml_definition", .vOpaque "CgmlDefinition")]

/-- The evaluator's view of a live game state: the resolvable tree plus
the attached definition. -/
def pyGameState (gs : GameState) : PyGameState :=
  ⟨encodeGameState gs, gs.cgml_definition⟩

/-- `GameSimulator._is_game_over` (src/simulator.py lines 191-196):
`current_state == "GameOver"`. -/
def is_game_over (gs : GameState) : Bool :=
  pyEq gs.current_state (.vStr "GameOver")

/-- `GameSimulator._get_phases_for_state` (src/simulator.py lines
94-103): the declared phase list, or `[]` for an unknown state or an
empty phase list. -/
def get_phases_for_state (flow : Flow) (stateName : Value) : List String :=
  match flow.states.find? (fun e => pyEq (.vStr e.1) stateName) with
  | some e => e.2.phases
  | none => []

/-- `GameSimulator._current_phase` (src/simulator.py lines 105-110). -/
def current_phase (flow : Flow) (sim : SimState) : Option String :=
  (get_phases_for_state flow sim.game_state.current_state).get? sim.phase_idx

/-- One entry of `get_legal_actions`' result. -/
structure LegalAction where
  rule_id : String
  effect : List EffectAction

/-- `GameSimulator.get_legal_actions` (src/simulator.py lines 75-92):
every rule whose trigger equals `"on.phase.<current phase>"` (the
f-string renders a missing phase as `"None"`) and whose condition is
absent or evaluates truthy.  Evaluation errors propagate. -/
def get_legal_actions (flow : Flow) (rules : List Rule) (sim : SimState) :
    Except EvalErr (List LegalAction) :=
  go rules ("on.phase." ++ (match current_phase flow sim with
                            | some s => s
                            | none => "None"))
where
  go : List Rule → String → Except EvalErr (List LegalAction)
    | [], _ => .ok []
    | r :: rest, trig =>
      if r.trigger == trig then
        match r.condition with
        | none =>
          match go rest trig with
          | .error e => .error e
          | .ok ls => .ok (⟨r.id, r.effect⟩ :: ls)
        | some c =>
          match evaluate_condition c (pyGameState sim.game_state) [] with
          | .error e => .error e
          | .ok v =>
            if pyTruthy v then
              match go rest trig with
              | .error e => .error e
              | .ok ls => .ok (⟨r.id, r.effect⟩ :: ls)
            else go rest trig
      else go rest trig

/-- `GameSimulator._check_state_transitions` (src/simulator.py lines
112-124): scan the declared transitions in order; the first whose
`from` equals the current state and whose condition is absent or
truthy fires, setting the target state and resetting the phase index. -/
def check_state_transitions (flow : Flow) (sim : SimState) :
    Except EvalErr (Option SimState) :=
  go flow.transitions
where
  go : List Transition → Except EvalErr (Option SimState)
    | [] => .ok none
    | t :: rest =>
      if pyEq (.vStr t.from_) sim.game_state.current_state then
        match t.condition with
        | none =>
          .ok (some { sim with
            game_state := { sim.game_state with current_state := .vStr t.to_ },
            phase_idx := 0 })
        | some c =>
          match evaluate_condition c (pyGameState sim.game_state) [] with
          | .error e => .error e
          | .ok v =>
            if pyTruthy v then
              .ok (some { sim with
                game_state := { sim.game_state with current_state := .vStr t.to_ },
                phase_idx := 0 })
            else go rest
      else go rest

/-- `GameSimulator._advance_turn` (src/simulator.py lines 198-204):
round-robin over the players.  (With zero players the source raises
`ZeroDivisionError`; Lean's `% 0` leaves the index unchanged.) -/
def advance_turn (sim : SimState) : SimState :=
  { sim with current_player_idx :=
      (sim.current_player_idx + 1) % sim.game_state.players.length }

/-- `GameSimulator._advance_phase` (src/simulator.py lines 206-227):
`False` with no phases; otherwise increment the phase index, and on
wrapping past the end reset it to 0, advance the turn and return
`False`; else `True`. -/
def advance_phase (flow : Flow) (sim : SimState) : Bool × SimState :=
  let phases := get_phases_for_state flow sim.game_state.current_state
  if phases.isEmpty then (false, sim)
  else
    let sim1 := { sim with phase_idx := sim.phase_idx + 1 }
    if phases.length ≤ sim1.phase_idx then
      (false, advance_turn { sim1 with phase_idx := 0 })
    else (true, sim1)

/-- The outcome of one iteration of `GameSimulator.run`'s `while` body. -/
inductive RunOutcome where
  /-- the `break` at the loop-top game-over check (lines 141-144) -/
  | gameOverTop
  /-- the `break` when no legal action exists and the phase cannot
  advance (lines 149-155) -/
  | stopped (sim : SimState)
  /-- the `break` when a declared transition fires into the terminal
  state (lines 171-186) -/
  | gameOverPostTransition (sim : SimState)
  /-- the loop continues with this simulator state -/
  | next (sim : SimState)

/-- One iteration of `GameSimulator.run`'s main loop (src/simulator.py
lines 132-189).  `pick` models `random.choice` as an arbitrary index
into the legal-action list (reduced mod its length); `registry` is the
engine's action registry.  Source order: loop-top game-over check;
legal-action collection; with none, try to advance the phase, breaking
when that fails; otherwise execute the chosen effect list, then — if
`current_state` changed — reset the phase index and continue without
consulting transitions; else consult declared transitions (breaking if
one fires into game over); else advance the phase. -/
def runIteration (flow : Flow) (rules : List Rule)
    (registry : List (String × Handler)) (pick : Nat) (sim : SimState) :
    Except EvalErr RunOutcome :=
  if is_game_over sim.game_state then .ok .gameOverTop
  else
    match get_legal_actions flow rules sim with
    | .error e => .error e
    | .ok [] =>
      let p := advance_phase flow sim
      if p.1 then .ok (.next p.2) else .ok (.stopped p.2)
    | .ok (l0 :: ls) =>
      let legal := l0 :: ls
      let prev := sim.game_state.current_state
      let chosen := legal.getD (pick % legal.length) l0
      let r := execute_effect registry chosen.effect sim.game_state []
      let sim1 := { sim with game_state := r.1 }
      if pyEq r.1.current_state prev then
        match check_state_transitions flow sim1 with
        | .error e => .error e
        | .ok (some sim2) =>
          if is_game_over sim2.game_state then .ok (.gameOverPostTransition sim2)
          else .ok (.next sim2)
        | .ok none => .ok (.next (advance_phase flow sim1).2)
      else .ok (.next { sim1 with phase_idx := 0 })

/-! ## Deck generation (src/state.py lines 49-67) and test fixtures -/

/-- The four suits `create_deck` iterates. -/
def standardSuits : List String := ["♠", "♥", "♦", "♣"]

/-- The inner `for rank in ranks` loop of `create_deck`: one suit's
cards, with the running 1-based index threaded through. -/
def deckRow (dtype suit : String) : List String → Nat → List Card
  | [], _ => []
  | r :: rest, idx =>
    ⟨dtype ++ "-" ++ suit ++ "-" ++ r ++ "-" ++ toString (idx + 1), r ++ suit,
     [("rank", .vStr r), ("suit", .vStr suit)], none⟩ :: deckRow dtype suit rest (idx + 1)

/-- The outer `for suit in suits` loop of `create_deck`. -/
def createDeckSuits (dtype : String) (ranks : List String) :
    List String → Nat → List Card
  | [], _ => []
  | s :: rest, idx =>
    deckRow dtype s ranks idx ++ createDeckSuits dtype ranks rest (idx + ranks.length)

/-- `create_deck` (src/state.py lines 49-67) for a deck whose
composition is one `standard_suits` template entry with the given rank
values: suits × ranks cards, ids carrying a running 1-based index. -/
def create_deck (dtype : String) (ranks : List String) : List Card :=
  createDeckSuits dtype ranks standardSuits 0

/-- The thirteen standard rank labels of the spec's examples. -/
def standardRankStrs : List String :=
  ["2", "3", "4", "5", "6", "7", "8", "9", "10", "J", "Q", "K", "A"]

/-- The standard rank hierarchy as definition values. -/
def standardRanks : List Value := standardRankStrs.map Value.vStr

/-- A definition whose sole deck type carries the standard hierarchy. -/
def standardDef : CgmlDef := ⟨[("standard_52", ⟨some standardRanks⟩)]⟩

/-- A distinct card fixture. -/
def testCard (n : Nat) : Card := ⟨"c" ++ toString n, "c" ++ toString n, [], none⟩

/-- A zone fixture holding the given cards. -/
def testZone (nm : String) (cs : List Card) : Zone := ⟨nm, "deck", none, none, none, cs⟩

/-- A condition node carrying only an `isEqual` operand pair. -/
def eqNode (a b : Opnd) : Opnd :=
  .node (.mk none none none (some [a, b]) none none none none none none none none none)

/-- A condition node carrying only an `isGreaterThan` operand pair. -/
def gtNode (a b : Opnd) : Opnd :=
  .node (.mk none none none none (some [a, b]) none none none none none none none none)

/-- A condition node carrying only an `isLessThan` operand pair. -/
def ltNode (a b : Opnd) : Opnd :=
  .node (.mk none none none none none (some [a, b]) none none none none none none none)

/-! # Theorems -/

/-- The `move_cards` loop moves exactly `n ≤ |f|` cards from the front
of `f`, in order, to the back of `t`. -/
theorem moveLoop_eq (n : Nat) : ∀ (f t : List Card), n ≤ f.length →
    moveLoop f t n = (f.drop n, t ++ f.take n) := by
  induction n with
  | zero => intro f t _; simp [moveLoop]
  | succ n ih =>
    intro f t h
    match f with
    | [] => simp at h
    | x :: rest =>
      rw [show moveLoop (x :: rest) t (n + 1) = moveLoop rest (t ++ [x]) n from rfl,
        ih rest (t ++ [x]) (by simpa using h)]
      simp

/-- The two closed zones produced by `move_cards`. -/
theorem move_cards_eq (f t : Zone) (count : Nat) :
    move_cards f t count =
      ({ f with cards := f.cards.drop (min count f.cards.length) },
       { t with cards := t.cards ++ f.cards.take (min count f.cards.length) }) := by
  unfold move_cards
  rw [moveLoop_eq _ _ _ (Nat.min_le_right _ _)]

/-- C5: `move(from, to, count)` removes `min(count, |from|)` cards from
the front of `from` and appends them, in the same relative order, to
the back of `to`; a count exceeding `from`'s size moves everything
without error; moving 3 from a 5-card zone leaves 2 behind and the
destination gains the first 3 in order. -/
theorem C5_move_front_to_back :
    (∀ (f t : Zone) (count : Nat),
        move_cards f t count =
          ({ f with cards := f.cards.drop (min count f.cards.length) },
           { t with cards := t.cards ++ f.cards.take (min count f.cards.length) })) ∧
    (∀ (f t : Zone) (count : Nat), f.cards.length ≤ count →
        (move_cards f t count).1.cards = [] ∧
        (move_cards f t count).2.cards = t.cards ++ f.cards) ∧
    (move_cards
        (testZone "f" [testCard 1, testCard 2, testCard 3, testCard 4, testCard 5])
        (testZone "t" []) 3 =
      (testZone "f" [testCard 4, testCard 5],
       testZone "t" [testCard 1, testCard 2, testCard 3])) := by
  refine ⟨move_cards_eq, fun f t count h => ?_, rfl⟩
  rw [move_cards_eq]
  simp [Nat.min_eq_right h]

/-- Witness for C5 at a concrete over-large count. -/
theorem C5_move_front_to_back_witness :
    (testZone "f" [testCard 1, testCard 2]).cards.length ≤ 5 ∧
    ((move_cards (testZone "f" [testCard 1, testCard 2]) (testZone "t" [testCard 9]) 5).1.cards = [] ∧
     (move_cards (testZone "f" [testCard 1, testCard 2]) (testZone "t" [testCard 9]) 5).2.cards =
       (testZone "t" [testCard 9]).cards ++ (testZone "f" [testCard 1, testCard 2]).cards) :=
  ⟨by decide, C5_move_front_to_back.2.1 _ _ 5 (by decide)⟩

/-- C7 (amended): resolving a `None` path returns the root value
unchanged, whatever the root's structure; the empty-string path is not
covered (see the counterexample). -/
theorem C7_none_path_identity (root : Value) : resolve_path root none = .ok root := rfl

/-- C7 counterexample: on the root `{"a": 1}` the empty-string path does
not return the root — Python splits `""` into the single segment `""`
and the lookup fails — refuting the claim that an empty path is the
identity. -/
theorem C7_counterexample :
    resolve_path (.vDict [(.ks "a", .vInt 1)]) (some "") = .error (.missingKey "") ∧
    resolve_path (.vDict [(.ks "a", .vInt 1)]) (some "") ≠
      .ok (.vDict [(.ks "a", .vInt 1)]) := by
  refine ⟨rfl, fun h => ?_⟩
  rw [show resolve_path (.vDict [(.ks "a", .vInt 1)]) (some "") =
      .error (.missingKey "") from rfl] at h
  exact Except.noConfusion h

/-- C8 (amended): during path resolution against an ordered sequence, a
segment that does not parse as an integer fails with the list-key error
kind; a parsed index at or beyond the sequence length fails with the
out-of-bounds kind, which carries the offending index and the path and
is distinct from the missing-key and unresolvable-segment kinds.
(Negative in-range indices, however, resolve Python-style from the end
— see the counterexample.) -/
theorem C8_list_segment_errors :
    (∀ (elems : List Value) (seg : String) (rest : List String) (p : String),
        pyParseInt seg = none →
        resolvePathGo (.vList elems) (seg :: rest) p = .error (.badListKey seg)) ∧
    (∀ (elems : List Value) (seg : String) (rest : List String) (p : String) (i : Int),
        pyParseInt seg = some i → (elems.length : Int) ≤ i →
        resolvePathGo (.vList elems) (seg :: rest) p = .error (.outOfBounds i p)) ∧
    (∀ (i : Int) (p part : String), PathError.outOfBounds i p ≠ .missingKey part) ∧
    (∀ (i : Int) (p part q : String), PathError.outOfBounds i p ≠ .cannotResolve part q) := by
  refine ⟨fun elems seg rest p h => ?_, fun elems seg rest p i h h2 => ?_,
    fun i p part => by simp, fun i p part q => by simp⟩
  · simp [resolvePathGo, h]
  · simp [resolvePathGo, h, Int.not_lt.mpr h2]

/-- Witness for C8: a non-integer segment and an out-of-range index on
a one-element sequence. -/
theorem C8_list_segment_errors_witness :
    pyParseInt "x" = none ∧
    resolvePathGo (.vList [.vInt 7]) ["x"] "x" = .error (.badListKey "x") ∧
    pyParseInt "3" = some 3 ∧
    resolvePathGo (.vList [.vInt 7]) ["3"] "3" = .error (.outOfBounds 3 "3") :=
  ⟨rfl, C8_list_segment_errors.1 [.vInt 7] "x" [] "x" rfl, rfl,
   C8_list_segment_errors.2.1 [.vInt 7] "3" [] "3" 3 rfl (by decide)⟩

/-- C8 counterexample: the segment `"-1"` does not parse as a
non-negative index, yet resolution succeeds (Python indexes from the
end), refuting "a segment that does not parse as a non-negative integer
index fails". -/
theorem C8_counterexample :
    pyParseInt "-1" = some (-1) ∧
    resolve_path (.vList [.vInt 7]) (some "-1") = .ok (.vInt 7) := ⟨rfl, rfl⟩

/-- C10: `top_card` is `None` on an empty zone and the last card of the
sequence otherwise; because `move_cards` appends to the back, the
destination's `top_card` after a move is the most recently moved card —
`from`'s card at position `min(count, |from|) - 1` — and (when at least
two distinct cards moved) not the front card that was moved first. -/
theorem C10_top_card_is_back :
    (∀ z : Zone, z.cards = [] → z.top_card = none) ∧
    (∀ (z : Zone) (h : z.cards ≠ []), z.top_card = some (z.cards.getLast h)) ∧
    (∀ (f t : Zone) (count : Nat), 0 < min count f.cards.length →
        (move_cards f t count).2.top_card = f.cards[min count f.cards.length - 1]?) ∧
    (∀ (f t : Zone) (count : Nat), 1 < min count f.cards.length → f.cards.Nodup →
        (move_cards f t count).2.top_card ≠ f.cards[0]?) := by
  have htop : ∀ (f t : Zone) (count : Nat), 0 < min count f.cards.length →
      (move_cards f t count).2.top_card = f.cards[min count f.cards.length - 1]? := by
    intro f t count h
    have hle : min count f.cards.length ≤ f.cards.length := Nat.min_le_right _ _
    have htake : f.cards.take (min count f.cards.length) ≠ [] := by
      intro he
      have hlen := congrArg List.length he
      rw [List.length_take_of_le hle] at hlen
      simp only [List.length_nil] at hlen
      exact (Nat.pos_iff_ne_zero.mp h) hlen
    have hne2 :
        ¬((t.cards ++ f.cards.take (min count f.cards.length)).isEmpty = true) := by
      simp only [List.isEmpty_iff, List.append_eq_nil]
      exact fun hx => htake hx.2
    rw [move_cards_eq]
    show Zone.top_card _ = _
    unfold Zone.top_card
    rw [if_neg hne2]
    rw [List.getLast?_append_of_ne_nil _ htake, List.getLast?_eq_getElem?]
    rw [List.length_take_of_le hle]
    simp [List.getElem?_take, Nat.sub_lt h Nat.one_pos]
  refine ⟨fun z h => by simp [Zone.top_card, h],
    fun z h => by simp [Zone.top_card, h, List.getLast?_eq_getLast_of_ne_nil h],
    htop, fun f t count h hnd => ?_⟩
  rw [htop f t count (by omega)]
  intro he
  have h1 : min count f.cards.length - 1 < f.cards.length := by
    have := Nat.min_le_right count f.cards.length; omega
  have h0 : 0 < f.cards.length := by omega
  rw [List.getElem?_eq_getElem h1, List.getElem?_eq_getElem h0] at he
  have := (List.Nodup.getElem_inj_iff hnd).mp (Option.some.inj he)
  omega

/-- C1 (amended): a raw condition map that contains at least one entry
and none of whose keys is a recognized operator key is rejected as a
hard parse/evaluation error (spec-modelled parsing, since the pydantic
models live in the absent loader); it is never evaluated to a value.
The empty map, however, parses to an all-empty condition node and the
engine's fall-through returns `False` (see the counterexample). -/
theorem C1_unknown_keys_rejected (k : String) (v : Raw) (rest : List (String × Raw))
    (gs : PyGameState) (ctx : List (String × Value)) (hk : k ∉ recognizedKeys) :
    evaluate_condition_raw (.rMap ((k, v) :: rest)) gs ctx = .error (.unknownKey k) := by
  simp only [evaluate_condition_raw, findUnknownKey, if_neg hk]

/-- Witness for C1: a map with the single unrecognized key `"foo"`. -/
theorem C1_unknown_keys_rejected_witness :
    "foo" ∉ recognizedKeys ∧
    evaluate_condition_raw (.rMap [("foo", .rInt 1)]) ⟨.vNone, none⟩ [] =
      .error (.unknownKey "foo") :=
  ⟨by decide, C1_unknown_keys_rejected "foo" (.rInt 1) [] ⟨.vNone, none⟩ [] (by decide)⟩

/-- C1 counterexample: the empty raw map — whose keys vacuously include
none of the recognized operator keys — does not raise: it parses to an
all-empty node and evaluates to `False` through the engine's line-159
fall-through, refuting "it never silently evaluates to False". -/
theorem C1_counterexample :
    (∀ kv : String × Raw, kv ∈ ([] : List (String × Raw)) → kv.1 ∉ recognizedKeys) ∧
    evaluate_condition_raw (.rMap []) ⟨.vNone, none⟩ [] = .ok (.vBool false) :=
  ⟨fun kv h => absurd h (List.not_mem_nil kv), rfl⟩

/-- C2: for every `equal`/`greaterThan`/`lessThan` operand pair, after
resolving both sides, if both values stringified occur in the rank
hierarchy of the first-declared deck type then the comparison is
performed on their index positions in that hierarchy; otherwise (one
value outside the hierarchy, or no attached definition) the raw
resolved values are compared; and with the standard hierarchy,
`greaterThan("K","2")` is true and `equal("10", 10)` is true. -/
theorem C2_rank_aware_comparison :
    (∀ (gs : PyGameState) (ctx : List (String × Value)) (dn : String)
       (dt : CgmlDeckType) (restDt : List (String × CgmlDeckType))
       (hier : List Value) (l r : Value) (il ir : Nat),
       gs.cgml = some ⟨(dn, dt) :: restDt⟩ →
       dt.rank_hierarchy = some hier →
       (hier.map pyStr).indexOf? (pyStr l) = some il →
       (hier.map pyStr).indexOf? (pyStr r) = some ir →
       evaluate_condition (gtNode (.raw l) (.raw r)) gs ctx =
           .ok (.vBool (decide ((ir : Int) < (il : Int)))) ∧
       evaluate_condition (ltNode (.raw l) (.raw r)) gs ctx =
           .ok (.vBool (decide ((il : Int) < (ir : Int)))) ∧
       evaluate_condition (eqNode (.raw l) (.raw r)) gs ctx =
           .ok (.vBool ((il : Int) == (ir : Int)))) ∧
    (∀ (gs : PyGameState) (ctx : List (String × Value)) (dn : String)
       (dt : CgmlDeckType) (restDt : List (String × CgmlDeckType))
       (hier : List Value) (l r : Value),
       gs.cgml = some ⟨(dn, dt) :: restDt⟩ →
       dt.rank_hierarchy = some hier →
       (hier.map pyStr).indexOf? (pyStr l) = none ∨
         (hier.map pyStr).indexOf? (pyStr r) = none →
       evaluate_condition (gtNode (.raw l) (.raw r)) gs ctx =
         (match pyGt l r with
          | .error e => .error (.pyErr e)
          | .ok b => .ok (.vBool b)) ∧
       evaluate_condition (ltNode (.raw l) (.raw r)) gs ctx =
         (match pyLt l r with
          | .error e => .error (.pyErr e)
          | .ok b => .ok (.vBool b)) ∧
       evaluate_condition (eqNode (.raw l) (.raw r)) gs ctx =
         .ok (.vBool (pyEq l r))) ∧
    (∀ (gs : PyGameState) (ctx : List (String × Value)) (l r : Value),
       gs.cgml = none →
       evaluate_condition (gtNode (.raw l) (.raw r)) gs ctx =
         (match pyGt l r with
          | .error e => .error (.pyErr e)
          | .ok b => .ok (.vBool b)) ∧
       evaluate_condition (ltNode (.raw l) (.raw r)) gs ctx =
         (match pyLt l r with
          | .error e => .error (.pyErr e)
          | .ok b => .ok (.vBool b)) ∧
       evaluate_condition (eqNode (.raw l) (.raw r)) gs ctx =
         .ok (.vBool (pyEq l r))) ∧
    evaluate_condition (gtNode (.raw (.vStr "K")) (.raw (.vStr "2")))
        ⟨.vNone, some standardDef⟩ [] = .ok (.vBool true) ∧
    evaluate_condition (eqNode (.raw (.vStr "10")) (.raw (.vInt 10)))
        ⟨.vNone, some standardDef⟩ [] = .ok (.vBool true) := by
  have baseGt : ∀ (gs : PyGameState) (ctx : List (String × Value)) (l r : Value),
      evaluate_condition (gtNode (.raw l) (.raw r)) gs ctx =
        (match pyGt (maybe_compare_ranks gs.cgml l r).1
            (maybe_compare_ranks gs.cgml l r).2 with
         | .error e => .error (.pyErr e)
         | .ok b => .ok (.vBool b)) := fun _ _ _ _ => rfl
  have baseLt : ∀ (gs : PyGameState) (ctx : List (String × Value)) (l r : Value),
      evaluate_condition (ltNode (.raw l) (.raw r)) gs ctx =
        (match pyLt (maybe_compare_ranks gs.cgml l r).1
            (maybe_compare_ranks gs.cgml l r).2 with
         | .error e => .error (.pyErr e)
         | .ok b => .ok (.vBool b)) := fun _ _ _ _ => rfl
  have baseEq : ∀ (gs : PyGameState) (ctx : List (String × Value)) (l r : Value),
      evaluate_condition (eqNode (.raw l) (.raw r)) gs ctx =
        .ok (.vBool (pyEq (maybe_compare_ranks gs.cgml l r).1
            (maybe_compare_ranks gs.cgml l r).2)) := fun _ _ _ _ => rfl
  refine ⟨?_, ?_, ?_, rfl, rfl⟩
  · intro gs ctx dn dt restDt hier l r il ir h1 h2 hl hr
    have hm : maybe_compare_ranks gs.cgml l r = (.vInt il, .vInt ir) := by
      rw [h1]
      simp only [maybe_compare_ranks, h2, hl, hr]
    rw [baseGt, baseLt, baseEq, hm]
    exact ⟨rfl, rfl, rfl⟩
  · intro gs ctx dn dt restDt hier l r h1 h2 hnone
    have hm : maybe_compare_ranks gs.cgml l r = (l, r) := by
      rw [h1]
      simp only [maybe_compare_ranks, h2]
      rcases hnone with hL | hR
      · rw [hL]
      · rw [hR]
        cases (hier.map pyStr).indexOf? (pyStr l) <;> rfl
    rw [baseGt, baseLt, baseEq, hm]
    exact ⟨rfl, rfl, rfl⟩
  · intro gs ctx l r h1
    have hm : maybe_compare_ranks gs.cgml l r = (l, r) := by rw [h1]; rfl
    rw [baseGt, baseLt, baseEq, hm]
    exact ⟨rfl, rfl, rfl⟩

/-- Witness for C2: queen and jack compared by hierarchy position with
all three operators, and a value absent from the hierarchy falling back
to the raw comparison for all three operators. -/
theorem C2_rank_aware_comparison_witness :
    ((standardRanks.map pyStr).indexOf? (pyStr (.vStr "Q")) = some 10 ∧
     (standardRanks.map pyStr).indexOf? (pyStr (.vStr "J")) = some 9 ∧
     (evaluate_condition (gtNode (.raw (.vStr "Q")) (.raw (.vStr "J")))
         ⟨.vNone, some standardDef⟩ [] = .ok (.vBool (decide ((9 : Int) < (10 : Int)))) ∧
      evaluate_condition (ltNode (.raw (.vStr "Q")) (.raw (.vStr "J")))
         ⟨.vNone, some standardDef⟩ [] = .ok (.vBool (decide ((10 : Int) < (9 : Int)))) ∧
      evaluate_condition (eqNode (.raw (.vStr "Q")) (.raw (.vStr "J")))
         ⟨.vNone, some standardDef⟩ [] = .ok (.vBool ((10 : Int) == (9 : Int))))) ∧
    ((standardRanks.map pyStr).indexOf? (pyStr (.vInt 42)) = none ∧
     (evaluate_condition (gtNode (.raw (.vInt 42)) (.raw (.vInt 7)))
         ⟨.vNone, some standardDef⟩ [] =
       (match pyGt (.vInt 42) (.vInt 7) with
        | .error e => .error (.pyErr e)
        | .ok b => .ok (.vBool b)) ∧
      evaluate_condition (ltNode (.raw (.vInt 42)) (.raw (.vInt 7)))
         ⟨.vNone, some standardDef⟩ [] =
       (match pyLt (.vInt 42) (.vInt 7) with
        | .error e => .error (.pyErr e)
        | .ok b => .ok (.vBool b)) ∧
      evaluate_condition (eqNode (.raw (.vInt 42)) (.raw (.vInt 7)))
         ⟨.vNone, some standardDef⟩ [] = .ok (.vBool (pyEq (.vInt 42) (.vInt 7))))) :=
  ⟨⟨rfl, rfl,
    C2_rank_aware_comparison.1 ⟨.vNone, some standardDef⟩ [] "standard_52"
      ⟨some standardRanks⟩ [] standardRanks (.vStr "Q") (.vStr "J") 10 9 rfl rfl rfl rfl⟩,
   ⟨rfl,
    C2_rank_aware_comparison.2.1 ⟨.vNone, some standardDef⟩ [] "standard_52"
      ⟨some standardRanks⟩ [] standardRanks (.vInt 42) (.vInt 7) rfl rfl (Or.inl rfl)⟩⟩

/-- Composing `execute_effect` over a split effect list: the second
part runs from the state and context the first part produced, and the
log lines concatenate in order. -/
theorem execute_effect_append (registry : List (String × Handler))
    (xs ys : List EffectAction) (gs : GameState) (ctx : Ctx) :
    execute_effect registry (xs ++ ys) gs ctx =
      ((execute_effect registry ys (execute_effect registry xs gs ctx).1
          (execute_effect registry xs gs ctx).2.1).1,
       (execute_effect registry ys (execute_effect registry xs gs ctx).1
          (execute_effect registry xs gs ctx).2.1).2.1,
       (execute_effect registry xs gs ctx).2.2 ++
         (execute_effect registry ys (execute_effect registry xs gs ctx).1
            (execute_effect registry xs gs ctx).2.1).2.2) := by
  induction xs generalizing gs ctx with
  | nil => simp [execute_effect]
  | cons a rest ih =>
    simp only [List.cons_append, execute_effect]
    cases hf : registry.find? (fun e => e.1 == a.action) with
    | some e => simp [ih]
    | none => simp [ih]

/-- C9: an effect list containing an action whose name is not in the
handler registry logs `"Action not implemented: ..."` for it, does not
raise, and still runs every remaining action in order: the final state
and context are exactly those of executing the list without the unknown
action, and the log records it between the surrounding actions' logs. -/
theorem C9_unknown_action_nonfatal (registry : List (String × Handler))
    (pre : List EffectAction) (a : EffectAction) (post : List EffectAction)
    (gs : GameState) (ctx : Ctx)
    (hf : registry.find? (fun e => e.1 == a.action) = none) :
    execute_effect registry (pre ++ a :: post) gs ctx =
      ((execute_effect registry post (execute_effect registry pre gs ctx).1
          (execute_effect registry pre gs ctx).2.1).1,
       (execute_effect registry post (execute_effect registry pre gs ctx).1
          (execute_effect registry pre gs ctx).2.1).2.1,
       (execute_effect registry pre gs ctx).2.2 ++
         ("Action not implemented: " ++ a.action) ::
           (execute_effect registry post (execute_effect registry pre gs ctx).1
              (execute_effect registry pre gs ctx).2.1).2.2) := by
  rw [execute_effect_append]
  rw [show ∀ g c, execute_effect registry (a :: post) g c =
      ((execute_effect registry post g c).1, (execute_effect registry post g c).2.1,
       ("Action not implemented: " ++ a.action) ::
         (execute_effect registry post g c).2.2) from fun g c => by
    simp only [execute_effect, hf]]

/-- Witness for C9: an unknown `"FOO"` action between two
`SET_GAME_STATE` actions; the second still runs and wins. -/
theorem C9_unknown_action_nonfatal_witness :
    ([("SET_GAME_STATE", set_game_state_action)] : List (String × Handler)).find?
        (fun e => e.1 == (EffectAction.mk "FOO" []).action) = none ∧
    execute_effect [("SET_GAME_STATE", set_game_state_action)]
        ([⟨"SET_GAME_STATE", [("state", .vStr "Play")]⟩] ++
          EffectAction.mk "FOO" [] :: [⟨"SET_GAME_STATE", [("state", .vStr "GameOver")]⟩])
        {} [] =
      ({ current_state := .vStr "GameOver" }, [], ["Action not implemented: FOO"]) := by
  refine ⟨rfl, ?_⟩
  rw [C9_unknown_action_nonfatal [("SET_GAME_STATE", set_game_state_action)]
    [⟨"SET_GAME_STATE", [("state", .vStr "Play")]⟩] (EffectAction.mk "FOO" [])
    [⟨"SET_GAME_STATE", [("state", .vStr "GameOver")]⟩] {} [] rfl]
  rfl

/-- Witness for C10: a three-card source, two cards moved. -/
theorem C10_top_card_is_back_witness :
    (0 < min 2 (testZone "f" [testCard 1, testCard 2, testCard 3]).cards.length) ∧
    (move_cards (testZone "f" [testCard 1, testCard 2, testCard 3]) (testZone "t" []) 2).2.top_card =
      (testZone "f" [testCard 1, testCard 2, testCard 3]).cards[min 2 (testZone "f" [testCard 1, testCard 2, testCard 3]).cards.length - 1]? ∧
    (1 < min 2 (testZone "f" [testCard 1, testCard 2, testCard 3]).cards.length) ∧
    (testZone "f" [testCard 1, testCard 2, testCard 3]).cards.Nodup ∧
    (move_cards (testZone "f" [testCard 1, testCard 2, testCard 3]) (testZone "t" []) 2).2.top_card ≠
      (testZone "f" [testCard 1, testCard 2, testCard 3]).cards[0]? := by
  have hnd : (testZone "f" [testCard 1, testCard 2, testCard 3]).cards.Nodup := by
    simp only [testZone, testCard, List.nodup_cons, List.mem_cons, List.mem_singleton,
      List.not_mem_nil, List.nodup_nil, Card.mk.injEq]
    refine ⟨?_, ?_, ?_⟩ <;> simp <;> decide
  exact ⟨by decide, C10_top_card_is_back.2.2.1 _ _ 2 (by decide), by decide, hnd,
    C10_top_card_is_back.2.2.2 _ _ 2 (by decide) hnd⟩

theorem storeCards_cons (hd : List Card) (tl : ZoneStore) :
    storeCards (hd :: tl) = ↑hd + storeCards tl := by
  simp [storeCards]

theorem storeCards_set (s : ZoneStore) (j : Nat) (v : List Card) (h : j < s.length) :
    storeCards (s.set j v) + (s.getD j [] : Multiset Card) =
      storeCards s + (v : Multiset Card) := by
  induction s generalizing j with
  | nil => simp at h
  | cons hd tl ih =>
    cases j with
    | zero =>
      simp only [List.set_cons_zero, List.getD_cons_zero, storeCards_cons]
      abel
    | succ n =>
      have h' : n < tl.length := by simpa using h
      simp only [List.set_cons_succ, List.getD_cons_succ, storeCards_cons]
      rw [add_assoc, ih n h', ← add_assoc]

theorem length_moveStep (s : ZoneStore) (i j : Nat) :
    (moveStep s i j).length = s.length := by
  unfold moveStep
  cases s.getD i [] <;> simp

theorem storeCards_moveStep (s : ZoneStore) (i j : Nat) (hi : i < s.length)
    (hj : j < s.length) : storeCards (moveStep s i j) = storeCards s := by
  unfold moveStep
  cases hgi : s.getD i [] with
  | nil => rfl
  | cons c rest =>
    have h1 := storeCards_set s i rest hi
    rw [hgi] at h1
    have hj1 : j < (s.set i rest).length := by simpa using hj
    have h2 := storeCards_set (s.set i rest) j ((s.set i rest).getD j [] ++ [c]) hj1
    have hA : storeCards (s.set i rest) + (↑[c] : Multiset Card) = storeCards s := by
      apply add_right_cancel (b := (↑rest : Multiset Card))
      calc storeCards (s.set i rest) + ↑[c] + ↑rest
          = storeCards (s.set i rest) + ↑(c :: rest) := by
            rw [add_assoc, Multiset.coe_add, List.singleton_append]
        _ = storeCards s + ↑rest := h1
    apply add_right_cancel (b := ((s.set i rest).getD j [] : Multiset Card))
    calc storeCards ((s.set i rest).set j ((s.set i rest).getD j [] ++ [c])) +
          ((s.set i rest).getD j [] : Multiset Card)
        = storeCards (s.set i rest) + ↑((s.set i rest).getD j [] ++ [c]) := h2
      _ = storeCards (s.set i rest) + (↑((s.set i rest).getD j []) + ↑[c]) := by
          rw [Multiset.coe_add]
      _ = (storeCards (s.set i rest) + ↑[c]) + ↑((s.set i rest).getD j []) := by abel
      _ = storeCards s + ↑((s.set i rest).getD j []) := by rw [hA]


theorem length_moveN (i j : Nat) : ∀ (n : Nat) (s : ZoneStore),
    (moveN s i j n).length = s.length := by
  intro n
  induction n with
  | zero => intro s; rfl
  | succ n ih => intro s; rw [show moveN s i j (n+1) = moveN (moveStep s i j) i j n from rfl,
      ih, length_moveStep]

theorem storeCards_moveN (i j : Nat) : ∀ (n : Nat) (s : ZoneStore),
    i < s.length → j < s.length → storeCards (moveN s i j n) = storeCards s := by
  intro n
  induction n with
  | zero => intro s _ _; rfl
  | succ n ih =>
    intro s hi hj
    rw [show moveN s i j (n+1) = moveN (moveStep s i j) i j n from rfl,
      ih _ (by rw [length_moveStep]; exact hi) (by rw [length_moveStep]; exact hj),
      storeCards_moveStep s i j hi hj]

theorem length_zMoveAllGo (i j : Nat) : ∀ (n : Nat) (s : ZoneStore),
    (zMoveAllGo s i j n).length = s.length := by
  intro n
  induction n with
  | zero => intro s; rfl
  | succ n ih =>
    intro s
    unfold zMoveAllGo
    cases s.getD i [] with
    | nil => rfl
    | cons c rest => rw [ih, length_moveStep]

theorem storeCards_zMoveAllGo (i j : Nat) : ∀ (n : Nat) (s : ZoneStore),
    i < s.length → j < s.length → storeCards (zMoveAllGo s i j n) = storeCards s := by
  intro n
  induction n with
  | zero => intro s _ _; rfl
  | succ n ih =>
    intro s hi hj
    unfold zMoveAllGo
    cases s.getD i [] with
    | nil => rfl
    | cons c rest =>
      rw [ih _ (by rw [length_moveStep]; exact hi) (by rw [length_moveStep]; exact hj),
        storeCards_moveStep s i j hi hj]

theorem length_zDealRound (src : Nat) : ∀ (hands : List Nat) (s : ZoneStore),
    (zDealRound s src hands).length = s.length := by
  intro hands
  induction hands with
  | nil => intro s; rfl
  | cons h hs ih =>
    intro s
    rw [show zDealRound s src (h :: hs) = zDealRound (moveStep s src h) src hs from rfl,
      ih, length_moveStep]

theorem storeCards_zDealRound (src : Nat) : ∀ (hands : List Nat) (s : ZoneStore),
    src < s.length → (∀ h ∈ hands, h < s.length) →
    storeCards (zDealRound s src hands) = storeCards s := by
  intro hands
  induction hands with
  | nil => intro s _ _; rfl
  | cons h hs ih =>
    intro s hsrc hh
    rw [show zDealRound s src (h :: hs) = zDealRound (moveStep s src h) src hs from rfl,
      ih _ (by rw [length_moveStep]; exact hsrc)
        (fun x hx => by rw [length_moveStep]; exact hh x (List.mem_cons_of_mem _ hx)),
      storeCards_moveStep s src h hsrc (hh h (List.mem_cons_self _ _))]

theorem length_zDeal (src : Nat) (hands : List Nat) : ∀ (n : Nat) (s : ZoneStore),
    (zDeal s src hands n).length = s.length := by
  intro n
  induction n with
  | zero => intro s; rfl
  | succ n ih =>
    intro s
    rw [show zDeal s src hands (n+1) = zDeal (zDealRound s src hands) src hands n from rfl,
      ih, length_zDealRound]

theorem storeCards_zDeal (src : Nat) (hands : List Nat) : ∀ (n : Nat) (s : ZoneStore),
    src < s.length → (∀ h ∈ hands, h < s.length) →
    storeCards (zDeal s src hands n) = storeCards s := by
  intro n
  induction n with
  | zero => intro s _ _; rfl
  | succ n ih =>
    intro s hsrc hh
    rw [show zDeal s src hands (n+1) = zDeal (zDealRound s src hands) src hands n from rfl,
      ih _ (by rw [length_zDealRound]; exact hsrc)
        (fun x hx => by rw [length_zDealRound]; exact hh x hx),
      storeCards_zDealRound src hands s hsrc hh]

theorem length_zDealAllGo (src : Nat) (hands : List Nat) :
    ∀ (n : Nat) (s : ZoneStore) (idx : Nat),
    (zDealAllGo s src hands idx n).length = s.length := by
  intro n
  induction n with
  | zero => intro s idx; rfl
  | succ n ih =>
    intro s idx
    unfold zDealAllGo
    cases s.getD src [] with
    | nil => rfl
    | cons c rest =>
      cases hh : hands.isEmpty with
      | true => simp
      | false => simp only [Bool.false_eq_true, if_false, ih, length_moveStep]

theorem storeCards_zDealAllGo (src : Nat) (hands : List Nat) :
    ∀ (n : Nat) (s : ZoneStore) (idx : Nat),
    src < s.length → (∀ h ∈ hands, h < s.length) →
    storeCards (zDealAllGo s src hands idx n) = storeCards s := by
  intro n
  induction n with
  | zero => intro s idx _ _; rfl
  | succ n ih =>
    intro s idx hsrc hh
    unfold zDealAllGo
    cases s.getD src [] with
    | nil => rfl
    | cons c rest =>
      cases hne : hands.isEmpty with
      | true => simp
      | false =>
        have hlen : 0 < hands.length := by
          cases hands with
          | nil => simp at hne
          | cons a l => simp
        have htgt : hands.getD (idx % hands.length) 0 ∈ hands := by
          rw [List.getD_eq_getElem?_getD,
            List.getElem?_eq_getElem (Nat.mod_lt _ hlen)]
          exact List.getElem_mem _
        have htl : hands.getD (idx % hands.length) 0 < s.length := hh _ htgt
        simp only [Bool.false_eq_true, if_false]
        rw [ih _ _ (by rw [length_moveStep]; exact hsrc)
          (fun x hx => by rw [length_moveStep]; exact hh x hx),
          storeCards_moveStep s src _ hsrc htl]

theorem length_zShuffle (s : ZoneStore) (i : Nat) (p : List Card → List Card) :
    (zShuffle s i p).length = s.length := by
  unfold zShuffle; simp

theorem storeCards_zShuffle (s : ZoneStore) (i : Nat) (p : List Card → List Card)
    (hi : i < s.length) (hp : ∀ l, List.Perm (p l) l) :
    storeCards (zShuffle s i p) = storeCards s := by
  unfold zShuffle
  apply add_right_cancel (b := (s.getD i [] : Multiset Card))
  rw [storeCards_set s i _ hi, Multiset.coe_eq_coe.mpr (hp (s.getD i []))]

theorem length_applyOp (s : ZoneStore) (op : ZOp) :
    (applyOp s op).length = s.length := by
  cases op with
  | move i j count => exact length_moveN i j _ s
  | moveAll i j => exact length_zMoveAllGo i j _ s
  | deal src hands count => exact length_zDeal src hands _ s
  | dealAll src hands => exact length_zDealAllGo src hands _ s 0
  | shuffle i p => exact length_zShuffle s i p

theorem storeCards_applyOp (s : ZoneStore) (op : ZOp) (h : opWF s.length op) :
    storeCards (applyOp s op) = storeCards s := by
  cases op with
  | move i j count => exact storeCards_moveN i j _ s h.1 h.2
  | moveAll i j => exact storeCards_zMoveAllGo i j _ s h.1 h.2
  | deal src hands count => exact storeCards_zDeal src hands _ s h.1 h.2
  | dealAll src hands => exact storeCards_zDealAllGo src hands _ s 0 h.1 h.2
  | shuffle i p => exact storeCards_zShuffle s i p h.1 h.2

/-- C4: every zone primitive — move, moveAll, deal, dealAll and shuffle
(the latter realizing a permutation) — preserves the global multiset of
cards over all zones: after any sequence of well-formed primitives,
every card still belongs to exactly one zone's sequence. -/
theorem C4_zone_ops_conserve_cards (ops : List ZOp) : ∀ (s : ZoneStore),
    (∀ op ∈ ops, opWF s.length op) →
    storeCards (applyOps s ops) = storeCards s := by
  induction ops with
  | nil => intro s _; rfl
  | cons op rest ih =>
    intro s h
    rw [show applyOps s (op :: rest) = applyOps (applyOp s op) rest from rfl,
      ih _ (fun o ho => by
        rw [length_applyOp]; exact h o (List.mem_cons_of_mem _ ho)),
      storeCards_applyOp s op (h op (List.mem_cons_self _ _))]


theorem length_dealAllGo : ∀ (cs : List Card) (hands : List (List Card)) (idx : Nat),
    (dealAllGo cs hands idx).length = hands.length := by
  intro cs
  induction cs with
  | nil => intro hands idx; rfl
  | cons c rest ih =>
    intro hands idx
    unfold dealAllGo
    cases hh : hands.isEmpty with
    | true => simp
    | false => simp only [Bool.false_eq_true, if_false, ih, List.length_set]

theorem dealAllGo_getD : ∀ (cs : List Card) (hands : List (List Card)) (idx k : Nat),
    k < hands.length →
    (dealAllGo cs hands idx).getD k [] =
      hands.getD k [] ++ pickRR hands.length cs idx k := by
  intro cs
  induction cs with
  | nil => intro hands idx k hk; simp [dealAllGo, pickRR]
  | cons c rest ih =>
    intro hands idx k hk
    have hpos : 0 < hands.length := Nat.lt_of_le_of_lt (Nat.zero_le _) hk
    have hne : hands.isEmpty = false := by
      cases hands with
      | nil => simp at hpos
      | cons a l => rfl
    have hm : idx % hands.length < hands.length := Nat.mod_lt _ hpos
    unfold dealAllGo
    rw [hne]
    simp only [Bool.false_eq_true, if_false]
    rw [ih _ _ k (by rw [List.length_set]; exact hk), List.length_set]
    show (hands.set (idx % hands.length)
        (hands.getD (idx % hands.length) [] ++ [c])).getD k [] ++
        pickRR hands.length rest (idx + 1) k =
      hands.getD k [] ++ pickRR hands.length (c :: rest) idx k
    rw [show pickRR hands.length (c :: rest) idx k =
        (if idx % hands.length = k then [c] else []) ++
          pickRR hands.length rest (idx + 1) k from rfl]
    by_cases hmk : idx % hands.length = k
    · rw [hmk, if_pos rfl]
      rw [show ((hands.set k (hands.getD k [] ++ [c])).getD k []) =
          hands.getD k [] ++ [c] from by
        simp [List.getD_eq_getElem?_getD, List.getElem?_set_self', hk]]
      simp [List.append_assoc]
    · rw [if_neg hmk]
      rw [show ((hands.set (idx % hands.length)
          (hands.getD (idx % hands.length) [] ++ [c])).getD k []) =
          hands.getD k [] from by
        simp [List.getD_eq_getElem?_getD, List.getElem?_set_ne hmk]]
      simp

theorem pickRR_append (n k : Nat) : ∀ (xs ys : List Card) (idx : Nat),
    pickRR n (xs ++ ys) idx k = pickRR n xs idx k ++ pickRR n ys (idx + xs.length) k := by
  intro xs
  induction xs with
  | nil => intro ys idx; simp [pickRR]
  | cons c rest ih =>
    intro ys idx
    show (if idx % n = k then [c] else []) ++ pickRR n (rest ++ ys) (idx + 1) k = _
    rw [ih ys (idx + 1)]
    show _ = ((if idx % n = k then [c] else []) ++ pickRR n rest (idx + 1) k) ++
      pickRR n ys (idx + (rest.length + 1)) k
    rw [show idx + (rest.length + 1) = idx + 1 + rest.length from by omega,
      List.append_assoc]

theorem pickRR_shift (n k : Nat) : ∀ (cs : List Card) (idx : Nat),
    pickRR n cs (idx + n) k = pickRR n cs idx k := by
  intro cs
  induction cs with
  | nil => intro idx; rfl
  | cons c rest ih =>
    intro idx
    show (if (idx + n) % n = k then [c] else []) ++ pickRR n rest (idx + n + 1) k = _
    rw [Nat.add_mod_right, show idx + n + 1 = idx + 1 + n from by omega, ih]
    rfl

theorem pickRR_block (n k : Nat) (hk : k < n) : ∀ (xs : List Card) (idx : Nat),
    idx + xs.length ≤ n →
    pickRR n xs idx k =
      if idx ≤ k ∧ k < idx + xs.length then [xs.getD (k - idx) default] else [] := by
  intro xs
  induction xs with
  | nil =>
    intro idx _
    rw [if_neg (by simp only [List.length_nil]; omega)]
    rfl
  | cons c rest ih =>
    intro idx hle
    have hidx : idx < n := by simp at hle; omega
    show (if idx % n = k then [c] else []) ++ pickRR n rest (idx + 1) k = _
    rw [Nat.mod_eq_of_lt hidx]
    by_cases he : idx = k
    · subst he
      rw [if_pos rfl, ih (idx + 1) (by simp at hle ⊢; omega)]
      rw [if_neg (by omega), if_pos (by simp only [List.length_cons]; omega)]
      simp
    · rw [if_neg he, ih (idx + 1) (by simp at hle ⊢; omega)]
      simp only [List.nil_append]
      by_cases hin : idx + 1 ≤ k ∧ k < idx + 1 + rest.length
      · rw [if_pos hin, if_pos (by simp only [List.length_cons]; omega)]
        rw [show k - idx = (k - (idx + 1)) + 1 from by omega]
        rfl
      · rw [if_neg hin, if_neg (by simp only [List.length_cons]; omega)]


theorem dealRound_fst : ∀ (hands : List (List Card)) (f : List Card),
    (dealRound f hands).1 = f.drop hands.length := by
  intro hands
  induction hands with
  | nil => intro f; cases f <;> rfl
  | cons h hs ih =>
    intro f
    cases f with
    | nil => rfl
    | cons c rest =>
      show (dealRound rest hs).1 = _
      rw [ih rest]
      rfl

theorem dealRound_snd_length : ∀ (hands : List (List Card)) (f : List Card),
    (dealRound f hands).2.length = hands.length := by
  intro hands
  induction hands with
  | nil => intro f; cases f <;> rfl
  | cons h hs ih =>
    intro f
    cases f with
    | nil => rfl
    | cons c rest =>
      show ((h ++ [c]) :: (dealRound rest hs).2).length = _
      simp [ih rest]

theorem dealRound_snd_getD : ∀ (hands : List (List Card)) (f : List Card) (k : Nat),
    k < hands.length →
    (dealRound f hands).2.getD k [] =
      hands.getD k [] ++ (if k < f.length then [f.getD k default] else []) := by
  intro hands
  induction hands with
  | nil => intro f k hk; simp at hk
  | cons h hs ih =>
    intro f k hk
    cases f with
    | nil =>
      show (h :: hs).getD k [] = _
      rw [if_neg (by simp)]
      simp
    | cons c rest =>
      cases k with
      | zero =>
        show ((h ++ [c]) :: (dealRound rest hs).2).getD 0 [] = _
        simp
      | succ n =>
        show ((h ++ [c]) :: (dealRound rest hs).2).getD (n + 1) [] = _
        rw [List.getD_cons_succ, ih rest n (by simp only [List.length_cons] at hk; omega)]
        simp [Nat.succ_lt_succ_iff]

theorem deal_cards_fst (count : Nat) : ∀ (f : List Card) (hands : List (List Card)),
    (deal_cards f hands count).1 = f.drop (count * hands.length) := by
  induction count with
  | zero => intro f hands; rw [Nat.zero_mul]; rfl
  | succ n ih =>
    intro f hands
    show (deal_cards (dealRound f hands).1 (dealRound f hands).2 n).1 = _
    rw [ih, dealRound_fst, dealRound_snd_length, List.drop_drop]
    congr 1
    ring

theorem deal_cards_getD (count : Nat) :
    ∀ (f : List Card) (hands : List (List Card)) (k : Nat), k < hands.length →
    (deal_cards f hands count).2.getD k [] =
      hands.getD k [] ++ pickRR hands.length (f.take (count * hands.length)) 0 k := by
  induction count with
  | zero =>
    intro f hands k hk
    show hands.getD k [] = _
    rw [Nat.zero_mul, List.take_zero]
    simp [pickRR]
  | succ n ih =>
    intro f hands k hk
    have hpos : 0 < hands.length := Nat.lt_of_le_of_lt (Nat.zero_le _) hk
    show (deal_cards (dealRound f hands).1 (dealRound f hands).2 n).2.getD k [] = _
    rw [ih _ _ k (by rw [dealRound_snd_length]; exact hk),
      dealRound_fst, dealRound_snd_length, dealRound_snd_getD hands f k hk,
      List.append_assoc]
    congr 1
    rw [show (n + 1) * hands.length = hands.length + n * hands.length from by ring,
      List.take_add, pickRR_append]
    congr 1
    · rw [pickRR_block hands.length k hk (f.take hands.length) 0
        (by simp only [Nat.zero_add]; exact List.length_take_le hands.length f)]
      by_cases hkf : k < f.length
      · have hcond : 0 ≤ k ∧ k < 0 + (List.take hands.length f).length := by
          refine ⟨Nat.zero_le _, ?_⟩
          simp only [Nat.zero_add, List.length_take]
          omega
        rw [if_pos hkf, if_pos hcond, Nat.sub_zero]
        congr 1
        simp [List.getD_eq_getElem?_getD, List.getElem?_take, hk,
          List.getElem?_eq_getElem hkf]
      · have hcond : ¬(0 ≤ k ∧ k < 0 + (List.take hands.length f).length) := by
          simp only [Nat.zero_add, List.length_take]
          omega
        rw [if_neg hkf, if_neg hcond]
    · cases Nat.lt_or_ge f.length hands.length with
      | inl hsmall =>
        rw [List.drop_eq_nil_of_le (Nat.le_of_lt hsmall)]
        simp [pickRR]
      | inr hbig =>
        rw [Nat.zero_add, List.length_take_of_le hbig]
        rw [show pickRR hands.length ((f.drop hands.length).take (n * hands.length))
            hands.length k =
          pickRR hands.length ((f.drop hands.length).take (n * hands.length))
            (0 + hands.length) k from by rw [Nat.zero_add]]
        rw [pickRR_shift]


/-- Witness for C4: a four-card deck and two hands, with one primitive
of each kind applied in sequence. -/
theorem C4_zone_ops_conserve_cards_witness :
    (∀ op ∈ ([.deal 0 [1, 2] 1, .move 0 1 2, .shuffle 1 List.reverse,
              .moveAll 1 2, .dealAll 0 [1, 2]] : List ZOp),
        opWF ([[testCard 1, testCard 2, testCard 3, testCard 4], [], []] :
          ZoneStore).length op) ∧
    storeCards (applyOps [[testCard 1, testCard 2, testCard 3, testCard 4], [], []]
        [.deal 0 [1, 2] 1, .move 0 1 2, .shuffle 1 List.reverse,
         .moveAll 1 2, .dealAll 0 [1, 2]]) =
      storeCards [[testCard 1, testCard 2, testCard 3, testCard 4], [], []] := by
  have hwf : ∀ op ∈ ([.deal 0 [1, 2] 1, .move 0 1 2, .shuffle 1 List.reverse,
      .moveAll 1 2, .dealAll 0 [1, 2]] : List ZOp),
      opWF ([[testCard 1, testCard 2, testCard 3, testCard 4], [], []] :
        ZoneStore).length op := by
    intro op hop
    simp only [List.mem_cons, List.not_mem_nil, or_false] at hop
    rcases hop with rfl | rfl | rfl | rfl | rfl
    · exact ⟨by decide, by decide⟩
    · exact ⟨by decide, by decide⟩
    · exact ⟨by decide, fun l => List.reverse_perm l⟩
    · exact ⟨by decide, by decide⟩
    · exact ⟨by decide, by decide⟩
  exact ⟨hwf, C4_zone_ops_conserve_cards _ _ hwf⟩

set_option maxRecDepth 20000 in
/-- C6: `deal` gives each hand, in player order, the source's front
cards round-robin for `count` rounds (hand `k` receives exactly the
cards at source positions ≡ `k` mod the player count among the first
`count · players` cards, exhaustion truncating); `dealAll` distributes
every card round-robin until the source is empty; dealing the 52-card
standard deck to 4 players yields exactly 13 cards each in round-robin
order, and dealing `[c1,c2,c3,c4]` two rounds to 2 players yields hands
`[c1,c3]` and `[c2,c4]`. -/
theorem C6_deal_round_robin :
    (∀ (f : List Card) (hands : List (List Card)) (count k : Nat),
        k < hands.length →
        (deal_cards f hands count).2.getD k [] =
          hands.getD k [] ++ pickRR hands.length (f.take (count * hands.length)) 0 k) ∧
    (∀ (f : List Card) (hands : List (List Card)) (count : Nat),
        (deal_cards f hands count).1 = f.drop (count * hands.length)) ∧
    (∀ (cs : List Card) (hands : List (List Card)) (k : Nat), k < hands.length →
        (deal_all_cards cs hands).getD k [] =
          hands.getD k [] ++ pickRR hands.length cs 0 k) ∧
    ((deal_all_cards (create_deck "standard_52" standardRankStrs)
        [[], [], [], []]).map List.length = [13, 13, 13, 13]) ∧
    (deal_all_cards (create_deck "standard_52" standardRankStrs) [[], [], [], []] =
      [pickRR 4 (create_deck "standard_52" standardRankStrs) 0 0,
       pickRR 4 (create_deck "standard_52" standardRankStrs) 0 1,
       pickRR 4 (create_deck "standard_52" standardRankStrs) 0 2,
       pickRR 4 (create_deck "standard_52" standardRankStrs) 0 3]) ∧
    (deal_cards [testCard 1, testCard 2, testCard 3, testCard 4] [[], []] 2 =
      ([], [[testCard 1, testCard 3], [testCard 2, testCard 4]])) :=
  ⟨fun f hands count k hk => deal_cards_getD count f hands k hk,
   fun f hands count => deal_cards_fst count f hands,
   fun cs hands k hk => dealAllGo_getD cs hands 0 k hk,
   rfl, rfl, rfl⟩

/-- Witness for C6: three cards dealt to two hands, checking hand 1 for
both `deal` and `dealAll`. -/
theorem C6_deal_round_robin_witness :
    (1 < ([[], []] : List (List Card)).length) ∧
    (deal_cards [testCard 1, testCard 2, testCard 3] [[], []] 2).2.getD 1 [] =
      ([[], []] : List (List Card)).getD 1 [] ++
        pickRR 2 ([testCard 1, testCard 2, testCard 3].take (2 * 2)) 0 1 ∧
    (deal_all_cards [testCard 1, testCard 2, testCard 3] [[], []]).getD 1 [] =
      ([[], []] : List (List Card)).getD 1 [] ++
        pickRR 2 [testCard 1, testCard 2, testCard 3] 0 1 :=
  ⟨by decide, C6_deal_round_robin.1 [testCard 1, testCard 2, testCard 3] [[], []] 2 1 (by decide),
   C6_deal_round_robin.2.2.1 [testCard 1, testCard 2, testCard 3] [[], []] 1 (by decide)⟩



/-- Changing only the declared transitions does not affect legal-action
collection (it reads the flow's states/phases alone). -/
theorem get_legal_actions_transitions (flow : Flow) (ts : List Transition)
    (rules : List Rule) (sim : SimState) :
    get_legal_actions { flow with transitions := ts } rules sim =
      get_legal_actions flow rules sim := rfl

/-- C3: in any run-loop iteration whose executed effect list changes
`current_state` (before/after comparison), the iteration continues with
the phase index reset to 0 and the new game state — and the outcome is
the same for every declared transition list, i.e. no transition is
evaluated that iteration.  In particular, when the effect set the state
to the terminal sentinel `"GameOver"`, the very next iteration detects
termination at the loop top, whatever the flow declares. -/
theorem C3_state_change_bypasses_transitions
    (flow : Flow) (rules : List Rule) (registry : List (String × Handler))
    (pick : Nat) (sim : SimState) (l0 : LegalAction) (ls : List LegalAction)
    (gs' : GameState)
    (hgo : is_game_over sim.game_state = false)
    (hlegal : get_legal_actions flow rules sim = .ok (l0 :: ls))
    (hexec : (execute_effect registry
        ((l0 :: ls).getD (pick % (l0 :: ls).length) l0).effect sim.game_state []).1 = gs')
    (hch : pyEq gs'.current_state sim.game_state.current_state = false) :
    (∀ ts : List Transition,
        runIteration { flow with transitions := ts } rules registry pick sim =
          .ok (.next ⟨gs', 0, sim.current_player_idx⟩)) ∧
    (gs'.current_state = .vStr "GameOver" →
      ∀ (flow2 : Flow) (rules2 : List Rule) (registry2 : List (String × Handler))
        (pick2 : Nat) (ph pl : Nat),
        runIteration flow2 rules2 registry2 pick2 ⟨gs', ph, pl⟩ = .ok .gameOverTop) := by
  constructor
  · intro ts
    simp only [runIteration, hgo, Bool.false_eq_true, if_false,
      get_legal_actions_transitions, hlegal, hexec, hch]
  · intro hGO flow2 rules2 registry2 pick2 ph pl
    have hover : is_game_over (⟨gs', ph, pl⟩ : SimState).game_state = true := by
      show is_game_over gs' = true
      unfold is_game_over
      rw [hGO]
      rfl
    simp only [runIteration, hover, if_true]

/-- Witness for C3: one state `Play` with one phase, a rule whose
effect is `SET_GAME_STATE GameOver`, and a declared `Play → Lost`
transition with no condition that would fire if it were consulted —
the iteration ignores it and the next iteration ends the game. -/
theorem C3_state_change_bypasses_transitions_witness :
    is_game_over ({ current_state := .vStr "Play" } : GameState) = false ∧
    get_legal_actions ⟨"Play", [("Play", ⟨["A"]⟩)], [⟨"Play", "Lost", none⟩]⟩
        [⟨"r1", "on.phase.A", none, [⟨"SET_GAME_STATE", [("state", .vStr "GameOver")]⟩]⟩]
        ⟨{ current_state := .vStr "Play" }, 0, 0⟩ =
      .ok [⟨"r1", [⟨"SET_GAME_STATE", [("state", .vStr "GameOver")]⟩]⟩] ∧
    runIteration ⟨"Play", [("Play", ⟨["A"]⟩)], [⟨"Play", "Lost", none⟩]⟩
        [⟨"r1", "on.phase.A", none, [⟨"SET_GAME_STATE", [("state", .vStr "GameOver")]⟩]⟩]
        [("SET_GAME_STATE", set_game_state_action)] 0
        ⟨{ current_state := .vStr "Play" }, 0, 0⟩ =
      .ok (.next ⟨{ current_state := .vStr "GameOver" }, 0, 0⟩) ∧
    runIteration ⟨"Play", [("Play", ⟨["A"]⟩)], [⟨"Play", "Lost", none⟩]⟩
        [⟨"r1", "on.phase.A", none, [⟨"SET_GAME_STATE", [("state", .vStr "GameOver")]⟩]⟩]
        [("SET_GAME_STATE", set_game_state_action)] 0
        ⟨{ current_state := .vStr "GameOver" }, 0, 0⟩ = .ok .gameOverTop := by
  refine ⟨rfl, rfl, ?_, ?_⟩
  · exact (C3_state_change_bypasses_transitions
      ⟨"Play", [("Play", ⟨["A"]⟩)], [⟨"Play", "Lost", none⟩]⟩
      [⟨"r1", "on.phase.A", none, [⟨"SET_GAME_STATE", [("state", .vStr "GameOver")]⟩]⟩]
      [("SET_GAME_STATE", set_game_state_action)] 0
      ⟨{ current_state := .vStr "Play" }, 0, 0⟩
      ⟨"r1", [⟨"SET_GAME_STATE", [("state", .vStr "GameOver")]⟩]⟩ []
      { current_state := .vStr "GameOver" }
      rfl rfl rfl rfl).1 [⟨"Play", "Lost", none⟩]
  · exact (C3_state_change_bypasses_transitions
      ⟨"Play", [("Play", ⟨["A"]⟩)], [⟨"Play", "Lost", none⟩]⟩
      [⟨"r1", "on.phase.A", none, [⟨"SET_GAME_STATE", [("state", .vStr "GameOver")]⟩]⟩]
      [("SET_GAME_STATE", set_game_state_action)] 0
      ⟨{ current_state := .vStr "Play" }, 0, 0⟩
      ⟨"r1", [⟨"SET_GAME_STATE", [("state", .vStr "GameOver")]⟩]⟩ []
      { current_state := .vStr "GameOver" }
      rfl rfl rfl rfl).2 rfl
      ⟨"Play", [("Play", ⟨["A"]⟩)], [⟨"Play", "Lost", none⟩]⟩
      [⟨"r1", "on.phase.A", none, [⟨"SET_GAME_STATE", [("state", .vStr "GameOver")]⟩]⟩]
      [("SET_GAME_STATE", set_game_state_action)] 0 0 0


end Cgml
